import Mathlib

/-!
# Verification of the cajax multi-currency till (caja) core

Shallow embedding of the ledger / inventory-costing core of the cajax
repository:
* `registrarTransaccion` models `POST /api/transacciones` (src/routes/usuarios.js),
* `abrirCaja`, `ajustarCaja`, `cerrarCaja` model `POST /api/caja/abrir`,
  `/ajustar`, `/cerrar` (src/routes/caja.js).

Monetary quantities are embedded as rationals (`ℚ`); the JavaScript
`Number((x).toFixed(2))` is modelled by `round2` (round to cents).  Each
route handler runs inside one SQL transaction with rollback on error, so a
failing operation is modelled as `Except.error` carrying no state: an error
leaves the database unchanged by construction.
-/

namespace Cajax

/-- Round a rational to 2 decimal places, the model of
`Number((x).toFixed(2))` in the source. -/
def round2 (x : ℚ) : ℚ := ((round (100 * x) : ℤ) : ℚ) / 100

/-- A row of the `divisas` table joined with `divisas_costos`
(the currency registry). -/
structure Divisa where
  id : Nat
  codigo : String
  tasa_compra : ℚ
  tasa_venta : ℚ
  costo_base_moneda : Option ℚ
  deriving DecidableEq, Repr

/-- A row of `divisas_inventario`: one acquisition lot. -/
structure Lote where
  id : Nat
  divisa_id : Nat
  caja_id : Nat
  monto : ℚ
  costo_base : ℚ
  disponible : Bool
  deriving DecidableEq, Repr

/-- A row of `caja_saldos`: the per-till per-currency balance. -/
structure CajaSaldo where
  caja_id : Nat
  divisa_id : Nat
  saldo_inicial : ℚ
  saldo_actual : ℚ
  deriving DecidableEq, Repr

/-- The `estado` column of `caja`. -/
inductive EstadoCaja where
  | ABIERTA
  | CERRADA
  deriving DecidableEq, Repr

/-- A row of the `caja` table (one till). -/
structure Caja where
  id : Nat
  usuario_id : Nat
  estado : EstadoCaja
  utilidad_total : ℚ
  deriving DecidableEq, Repr

/-- A row of `movimientos_caja`. -/
structure Movimiento where
  caja_id : Nat
  tipo : String
  divisa_id : Nat
  monto : ℚ
  descripcion : String
  usuario_id : Nat
  deriving DecidableEq, Repr

/-- The `tipo` column of `transacciones`. -/
inductive TipoTx where
  | COMPRA
  | VENTA
  deriving DecidableEq, Repr

/-- A row of `transacciones`.  The INSERT in the source does not set the
`estado` column, so freshly recorded transactions carry the column default,
modelled as `""` (in particular it is not `"PENDIENTE"`). -/
structure Transaccion where
  id : Nat
  caja_id : Nat
  tipo : TipoTx
  divisa_id : Nat
  cliente_id : Option Nat
  monto : ℚ
  comision : ℚ
  tipo_cambio : ℚ
  total_soles : ℚ
  utilidad : Option ℚ
  usuario_id : Nat
  estado : String
  deriving DecidableEq, Repr

/-- The persistent state: the tables the till core reads and writes.
Rows are kept in insertion order; `next_*` model AUTO_INCREMENT ids. -/
structure DB where
  divisas : List Divisa
  cajas : List Caja
  caja_saldos : List CajaSaldo
  lotes : List Lote
  movimientos : List Movimiento
  transacciones : List Transaccion
  next_caja_id : Nat
  next_lote_id : Nat
  next_tx_id : Nat
  deriving DecidableEq, Repr

/-- An empty database holding a given currency registry. -/
def DB.inicial (divisas : List Divisa) : DB :=
  ⟨divisas, [], [], [], [], [], 1, 1, 1⟩

/-- `SELECT ... FROM caja WHERE estado = 'ABIERTA' AND usuario_id = ?`. -/
def abiertasDe (db : DB) (uid : Nat) : List Caja :=
  db.cajas.filter fun c => decide (c.estado = EstadoCaja.ABIERTA ∧ c.usuario_id = uid)

/-- `ORDER BY id DESC LIMIT 1`: the row with the largest id, if any. -/
def maxPorId : List Caja → Option Caja
  | [] => none
  | c :: cs =>
    match maxPorId cs with
    | none => some c
    | some m => if m.id ≤ c.id then some c else some m

/-- The operator's currently open till
(`SELECT id FROM caja WHERE estado = 'ABIERTA' AND usuario_id = ?
ORDER BY id DESC LIMIT 1`). -/
def cajaAbiertaDe (db : DB) (uid : Nat) : Option Caja :=
  maxPorId (abiertasDe db uid)

/-- `SELECT ... FROM divisas WHERE id = ?` (first matching row). -/
def divisaPorId (db : DB) (did : Nat) : Option Divisa :=
  db.divisas.find? fun d => decide (d.id = did)

/-- The `WHERE caja_id = ? AND divisa_id = ?` key predicate on `caja_saldos`. -/
def esSaldoDe (cid did : Nat) (s : CajaSaldo) : Bool :=
  decide (s.caja_id = cid ∧ s.divisa_id = did)

/-- Balance lookup on the raw table, with the source's
`Number(saldo[0]?.saldo_actual || 0)` defaulting. -/
def saldoActualL (l : List CajaSaldo) (cid did : Nat) : ℚ :=
  match l.find? (esSaldoDe cid did) with
  | some s => s.saldo_actual
  | none => 0

/-- `SELECT saldo_actual FROM caja_saldos WHERE caja_id = ? AND divisa_id = ?`. -/
def saldoActualDe (db : DB) (cid did : Nat) : ℚ :=
  saldoActualL db.caja_saldos cid did

/-- Whether a `caja_saldos` row exists for the key. -/
def existeSaldoL (l : List CajaSaldo) (cid did : Nat) : Bool :=
  l.any (esSaldoDe cid did)

/-- Whether a `caja_saldos` row exists for the key, in the database. -/
def existeSaldo (db : DB) (cid did : Nat) : Bool :=
  existeSaldoL db.caja_saldos cid did

/-- The lazy zero-initialisation of a balance row
(`INSERT INTO caja_saldos ... VALUES (?, ?, 0, 0)` when absent). -/
def ensureSaldo (db : DB) (cid did : Nat) : DB :=
  if existeSaldo db cid did then db
  else { db with caja_saldos := db.caja_saldos ++ [⟨cid, did, 0, 0⟩] }

/-- The row update of
`UPDATE caja_saldos SET saldo_actual = saldo_actual + ? WHERE ...`. -/
def conDelta (cid did : Nat) (delta : ℚ) (s : CajaSaldo) : CajaSaldo :=
  if esSaldoDe cid did s then { s with saldo_actual := s.saldo_actual + delta } else s

/-- `UPDATE caja_saldos SET saldo_actual = saldo_actual + ?
WHERE caja_id = ? AND divisa_id = ?`. -/
def aplicarDelta (db : DB) (cid did : Nat) (delta : ℚ) : DB :=
  { db with caja_saldos := db.caja_saldos.map (conDelta cid did delta) }

/-- The available-lot selection on the raw table. -/
def disponiblesDe (lotes : List Lote) (did cid : Nat) : List Lote :=
  lotes.filter fun l => decide (l.divisa_id = did ∧ l.caja_id = cid) && l.disponible

/-- `SELECT id, monto, costo_base FROM divisas_inventario
WHERE divisa_id = ? AND caja_id = ? AND disponible = TRUE`. -/
def lotesDisponibles (db : DB) (did cid : Nat) : List Lote :=
  disponiblesDe db.lotes did cid

/-- `lotes.reduce((sum, lote) => sum + Number(lote.monto), 0)`. -/
def sumaMontos (ls : List Lote) : ℚ := (ls.map (·.monto)).sum

/-- `lotes.reduce((sum, lote) => sum + Number(lote.monto) * Number(lote.costo_base), 0)`. -/
def sumaCostos (ls : List Lote) : ℚ := (ls.map fun l => l.monto * l.costo_base).sum

/-- The source's `costoPonderado`: the weighted-average unit cost over ALL
the lots in the list (not only the ones later touched by the walk). -/
def costoPonderadoDe (ls : List Lote) : ℚ := sumaCostos ls / sumaMontos ls

/-- The realized cost of a VENTA of `monto` units, exactly as computed at
src/routes/usuarios.js lines 332-354: if any lot is available and the lots
cover the amount, price the whole amount at the all-lots weighted average;
otherwise price the whole amount at the reference buy rate `tasa_compra`. -/
def costoVenta (ls : List Lote) (monto tasa_compra : ℚ) : ℚ :=
  if ls.length ≠ 0 then
    if sumaMontos ls ≥ monto then monto * costoPonderadoDe ls
    else monto * tasa_compra
  else monto * tasa_compra

/-- The FIFO walk over the selected lots: which lot ids are consumed and by
how much (`montoUsado = Math.min(montoRestante, lote.monto)`, stopping once
`montoRestante <= 0`). -/
def consumoWalk : List Lote → ℚ → List (Nat × ℚ)
  | [], _ => []
  | l :: ls, restante =>
    if restante ≤ 0 then []
    else
      let u := min restante l.monto
      (l.id, u) :: consumoWalk ls (restante - u)

/-- One `UPDATE divisas_inventario SET monto = monto - ?,
disponible = IF(monto - ? <= 0, FALSE, TRUE) WHERE id = ?` applied to one
row.  MySQL evaluates the SET assignments left to right and an assignment
expression reads the already-updated value of a column assigned earlier in
the same statement, so the `IF` here compares `(monto - montoUsado) -
montoUsado` against zero, not `monto - montoUsado`. -/
def consumirLote (l : Lote) (montoUsado : ℚ) : Lote :=
  let nuevoMonto := l.monto - montoUsado
  { l with
    monto := nuevoMonto
    disponible := if nuevoMonto - montoUsado ≤ 0 then false else true }

/-- Apply one consumption UPDATE (keyed by lot id) to the whole table. -/
def updateLote (todos : List Lote) (lid : Nat) (u : ℚ) : List Lote :=
  todos.map fun l => if decide (l.id = lid) then consumirLote l u else l

/-- Apply the sequence of consumption UPDATEs produced by the walk. -/
def aplicarPlan (todos : List Lote) (plan : List (Nat × ℚ)) : List Lote :=
  plan.foldl (fun ls p => updateLote ls p.1 p.2) todos

/-- The lot table after a VENTA: the walk runs only in the branch where the
available lots cover the amount; in the fallback branches no lot is
touched. -/
def lotesTrasVenta (todos ls : List Lote) (monto : ℚ) : List Lote :=
  if ls.length ≠ 0 ∧ sumaMontos ls ≥ monto then
    aplicarPlan todos (consumoWalk ls monto)
  else todos

/-- Input of `POST /api/transacciones` after Joi coercion. -/
structure TxInput where
  tipo : TipoTx
  divisa_id : Nat
  cliente_id : Option Nat
  monto : ℚ
  tasa : ℚ
  total_soles : ℚ
  comision : ℚ
  deriving DecidableEq, Repr

/-- Result payload of a successful transaction. -/
structure TxResult where
  transaccion_id : Nat
  utilidad : Option ℚ
  deriving DecidableEq, Repr

/-- The reference rate for the direction (`tasaRef`). -/
def tasaRef (tipo : TipoTx) (d : Divisa) : ℚ :=
  match tipo with
  | .COMPRA => d.tasa_compra
  | .VENTA => d.tasa_venta

/-- All the fail-fast checks of `POST /api/transacciones`, in source order:
Joi schema (positive amounts, `divisa_id` at least 2), open till, currency
lookup, rate sanity (tolerance 0.1), recomputed `total_soles` (tolerance
0.01), and the large-transaction customer requirement.  Every failure rolls
the SQL transaction back, so the checks are modelled before any mutation. -/
def chequeos (db : DB) (uid : Nat) (inp : TxInput) :
    Except String (Caja × Divisa × ℚ) :=
  if ¬ (0 < inp.monto ∧ 0 < inp.tasa ∧ 0 < inp.total_soles ∧
        0 ≤ inp.comision ∧ 2 ≤ inp.divisa_id) then
    .error "Validacion fallida"
  else
    match cajaAbiertaDe db uid with
    | none => .error "No hay caja abierta"
    | some caja =>
      match divisaPorId db inp.divisa_id with
      | none => .error "Divisa no encontrada"
      | some d =>
        if |inp.tasa - tasaRef inp.tipo d| > 1/10 then
          .error "Tasa fuera de rango"
        else if |round2 (inp.monto * inp.tasa) - inp.total_soles| > 1/100 then
          .error "Total soles inconsistente"
        else if round2 (inp.monto * inp.tasa) > 10000 ∧ inp.cliente_id = none then
          .error "Cliente requerido para transacciones mayores a 10000 soles"
        else
          .ok (caja, d, round2 (inp.monto * inp.tasa))

/-- The movements appended for one transaction: the home-currency leg, the
foreign leg and, for a VENTA, the profit/loss movement. -/
def movimientosTx (cid uid : Nat) (tipo : TipoTx) (codigo : String)
    (tx_id : Nat) (total monto : ℚ) (did : Nat) (utilidad : Option ℚ) :
    List Movimiento :=
  let base : List Movimiento :=
    [⟨cid, (match tipo with | .COMPRA => "EGRESO" | .VENTA => "INGRESO"), 1, total,
      (match tipo with
       | .COMPRA => "Pago cliente: COMPRA de " ++ codigo ++ " (Tx " ++ toString tx_id ++ ")"
       | .VENTA => "Recibido cliente: VENTA de " ++ codigo ++ " (Tx " ++ toString tx_id ++ ")"),
      uid⟩,
     ⟨cid, (match tipo with | .COMPRA => "INGRESO" | .VENTA => "EGRESO"), did, monto,
      (match tipo with
       | .COMPRA => "Recibido: COMPRA de " ++ codigo ++ " (Tx " ++ toString tx_id ++ ")"
       | .VENTA => "Entregado: VENTA de " ++ codigo ++ " (Tx " ++ toString tx_id ++ ")"),
      uid⟩]
  match tipo, utilidad with
  | .VENTA, some u =>
    base ++ [⟨cid, (if u ≥ 0 then "INGRESO" else "EGRESO"), 1, |u|,
      (if u ≥ 0 then "Utilidad: VENTA de " ++ codigo ++ " (Tx " ++ toString tx_id ++ ")"
       else "Perdida: VENTA de " ++ codigo ++ " (Tx " ++ toString tx_id ++ ")"), uid⟩]
  | _, _ => base

/-- The home-currency balance delta of a transaction
(`tipo === 'COMPRA' ? -total_soles : total_soles`). -/
def deltaPen (tipo : TipoTx) (total : ℚ) : ℚ :=
  match tipo with | .COMPRA => -total | .VENTA => total

/-- The foreign-currency balance delta of a transaction
(`tipo === 'COMPRA' ? monto : -monto`). -/
def deltaDiv (tipo : TipoTx) (monto : ℚ) : ℚ :=
  match tipo with | .COMPRA => monto | .VENTA => -monto

/-- `UPDATE caja SET utilidad_total = utilidad_total + ? WHERE id = ?`,
applied to one row. -/
def conUtilidad (cid : Nat) (u : ℚ) (k : Caja) : Caja :=
  if decide (k.id = cid) then { k with utilidad_total := k.utilidad_total + u } else k

/-- The common tail of the handler (src/routes/usuarios.js lines 369-423):
insert the `transacciones` row, apply the two balance deltas, append the
movements and, for a VENTA, add the profit to `caja.utilidad_total`. -/
def finalizarTx (db : DB) (uid : Nat) (inp : TxInput) (caja : Caja)
    (d : Divisa) (total : ℚ) (utilidad : Option ℚ) (comisionFinal : ℚ) :
    DB × TxResult :=
  let tx_id := db.next_tx_id
  let db3 := { db with
    transacciones := db.transacciones ++
      [⟨tx_id, caja.id, inp.tipo, inp.divisa_id, inp.cliente_id, inp.monto,
        comisionFinal, inp.tasa, total, utilidad, uid, ""⟩]
    next_tx_id := tx_id + 1 }
  let db4 := aplicarDelta (aplicarDelta db3 caja.id 1 (deltaPen inp.tipo total))
    caja.id inp.divisa_id (deltaDiv inp.tipo inp.monto)
  let db5 := { db4 with
    movimientos := db4.movimientos ++
      movimientosTx caja.id uid inp.tipo d.codigo tx_id total inp.monto inp.divisa_id utilidad }
  let db6 :=
    match inp.tipo, utilidad with
    | .VENTA, some u => { db5 with cajas := db5.cajas.map (conUtilidad caja.id u) }
    | _, _ => db5
  (db6, ⟨tx_id, utilidad⟩)

/-- The mutation phase of `POST /api/transacciones` (after all checks
passed): lazy balance rows, then the VENTA costing / lot consumption or the
COMPRA lot insertion, then the common tail. -/
def aplicarTx (db : DB) (uid : Nat) (inp : TxInput) (caja : Caja)
    (d : Divisa) (total : ℚ) : DB × TxResult :=
  let db1 := ensureSaldo (ensureSaldo db caja.id 1) caja.id inp.divisa_id
  match inp.tipo with
  | .VENTA =>
    let ls := lotesDisponibles db1 inp.divisa_id caja.id
    let costoTotal := costoVenta ls inp.monto d.tasa_compra
    let db2 := { db1 with lotes := lotesTrasVenta db1.lotes ls inp.monto }
    let u := round2 (total - costoTotal)
    finalizarTx db2 uid inp caja d total (some u) u
  | .COMPRA =>
    let db2 := { db1 with
      lotes := db1.lotes ++ [⟨db1.next_lote_id, inp.divisa_id, caja.id, inp.monto, inp.tasa, true⟩]
      next_lote_id := db1.next_lote_id + 1 }
    finalizarTx db2 uid inp caja d total none inp.comision

/-- `POST /api/transacciones`: the whole handler.  An error models the SQL
rollback (no state change). -/
def registrarTransaccion (db : DB) (uid : Nat) (inp : TxInput) :
    Except String (DB × TxResult) :=
  match chequeos db uid inp with
  | .error e => .error e
  | .ok (caja, d, total) => .ok (aplicarTx db uid inp caja d total)

/-- The `divisaMap` of `POST /api/caja/abrir`: registry codes (last row
wins) over the base mapping `PEN` to id 1. -/
def divisaIdDe (db : DB) (codigo : String) : Option Nat :=
  match (db.divisas.filter fun d => decide (d.codigo = codigo)).getLast? with
  | some d => some d.id
  | none => if codigo = "PEN" then some 1 else none

/-- The seeding loop of `POST /api/caja/abrir`: one
`INSERT INTO caja_saldos (caja_id, divisa_id, saldo_inicial, saldo_actual)`
per supplied currency whose code resolves in `divisaMap` (unresolved codes
are skipped by `continue`). -/
def seedSaldos (db0 : DB) (cid : Nat) : List (String × ℚ) → DB → DB
  | [], acc => acc
  | p :: ps, acc =>
    seedSaldos db0 cid ps
      (match divisaIdDe db0 p.1 with
       | some did => { acc with caja_saldos := acc.caja_saldos ++ [⟨cid, did, p.2, p.2⟩] }
       | none => acc)

/-- `POST /api/caja/abrir`: Joi validation, the one-open-till check, the
insert of the till row with `utilidad_total = 0`, the seeded balances and
the optional opening-adjustment movement (`tipo = 'AJUSTE'`). -/
def abrirCaja (db : DB) (uid : Nat) (saldos : List (String × ℚ))
    (descripcion_ajuste : Option String) : Except String (DB × Nat) :=
  if ¬ (∀ p ∈ saldos, p.1 ∈ (["PEN", "USD", "EUR"] : List String) ∧ 0 ≤ p.2) then
    .error "Validacion fallida"
  else if abiertasDe db uid ≠ [] then
    .error "Ya hay una caja abierta"
  else
    let cid := db.next_caja_id
    let db1 := { db with
      cajas := db.cajas ++ [⟨cid, uid, EstadoCaja.ABIERTA, 0⟩]
      next_caja_id := cid + 1 }
    let db2 := seedSaldos db cid saldos db1
    let db3 :=
      match descripcion_ajuste with
      | some desc =>
        { db2 with movimientos := db2.movimientos ++ [⟨cid, "AJUSTE", 1, 0, desc, uid⟩] }
      | none => db2
    .ok (db3, cid)

/-- The adjusted balance
(`tipo === 'INGRESO' ? saldo_actual + monto : saldo_actual - monto`, with
`saldo_actual` read from `caja_saldos` or defaulted to 0). -/
def nuevoSaldo (db : DB) (cid did : Nat) (tipo : String) (monto : ℚ) : ℚ :=
  if tipo = "INGRESO" then saldoActualDe db cid did + monto
  else saldoActualDe db cid did - monto

/-- `POST /api/caja/ajustar`: Joi validation, open-till and currency
lookups, the negative-balance hard block, the balance write (UPDATE of the
existing row or INSERT with `saldo_inicial = 0`) and exactly one appended
movement whose `tipo` is the caller's INGRESO/EGRESO and whose
`descripcion` is the caller's text. -/
def ajustarCaja (db : DB) (uid : Nat) (moneda tipo : String) (monto : ℚ)
    (descripcion : String) : Except String (DB × Nat) :=
  if ¬ (moneda ∈ (["PEN", "USD", "EUR"] : List String) ∧
        (tipo = "INGRESO" ∨ tipo = "EGRESO") ∧ 0 < monto) then
    .error "Validacion fallida"
  else
    match cajaAbiertaDe db uid with
    | none => .error "No hay caja abierta para ajustar"
    | some c =>
      match db.divisas.find? (fun d => decide (d.codigo = moneda)) with
      | none => .error "Moneda no encontrada"
      | some d =>
        if nuevoSaldo db c.id d.id tipo monto < 0 then
          .error "El ajuste resultaria en saldo negativo"
        else if existeSaldo db c.id d.id then
          .ok ({ db with
                 caja_saldos := db.caja_saldos.map fun s =>
                   if esSaldoDe c.id d.id s then
                     { s with saldo_actual := nuevoSaldo db c.id d.id tipo monto }
                   else s
                 movimientos := db.movimientos ++
                   [⟨c.id, tipo, d.id, monto, descripcion, uid⟩] },
               c.id)
        else
          .ok ({ db with
                 caja_saldos := db.caja_saldos ++
                   [⟨c.id, d.id, 0, nuevoSaldo db c.id d.id tipo monto⟩]
                 movimientos := db.movimientos ++
                   [⟨c.id, tipo, d.id, monto, descripcion, uid⟩] },
               c.id)

/-- `POST /api/caja/cerrar`: the open-till lookup, the pending-transactions
gate and the terminal transition to CERRADA. -/
def cerrarCaja (db : DB) (uid : Nat) : Except String (DB × Nat) :=
  match cajaAbiertaDe db uid with
  | none => .error "No hay caja abierta para cerrar"
  | some c =>
    if (db.transacciones.filter fun t =>
          decide (t.caja_id = c.id ∧ t.estado = "PENDIENTE")).length > 0 then
      .error "No se puede cerrar la caja con transacciones pendientes"
    else
      .ok ({ db with
             cajas := db.cajas.map fun k =>
               if decide (k.id = c.id) then { k with estado := EstadoCaja.CERRADA } else k },
           c.id)

/-! ## Basic projection lemmas -/

@[simp] theorem ensureSaldo_lotes (db : DB) (c d : Nat) :
    (ensureSaldo db c d).lotes = db.lotes := by
  unfold ensureSaldo; split <;> rfl

@[simp] theorem ensureSaldo_cajas (db : DB) (c d : Nat) :
    (ensureSaldo db c d).cajas = db.cajas := by
  unfold ensureSaldo; split <;> rfl

@[simp] theorem ensureSaldo_transacciones (db : DB) (c d : Nat) :
    (ensureSaldo db c d).transacciones = db.transacciones := by
  unfold ensureSaldo; split <;> rfl

@[simp] theorem ensureSaldo_divisas (db : DB) (c d : Nat) :
    (ensureSaldo db c d).divisas = db.divisas := by
  unfold ensureSaldo; split <;> rfl

@[simp] theorem ensureSaldo_movimientos (db : DB) (c d : Nat) :
    (ensureSaldo db c d).movimientos = db.movimientos := by
  unfold ensureSaldo; split <;> rfl

@[simp] theorem ensureSaldo_next_caja_id (db : DB) (c d : Nat) :
    (ensureSaldo db c d).next_caja_id = db.next_caja_id := by
  unfold ensureSaldo; split <;> rfl

@[simp] theorem ensureSaldo_next_lote_id (db : DB) (c d : Nat) :
    (ensureSaldo db c d).next_lote_id = db.next_lote_id := by
  unfold ensureSaldo; split <;> rfl

@[simp] theorem ensureSaldo_next_tx_id (db : DB) (c d : Nat) :
    (ensureSaldo db c d).next_tx_id = db.next_tx_id := by
  unfold ensureSaldo; split <;> rfl

@[simp] theorem aplicarDelta_lotes (db : DB) (c d : Nat) (x : ℚ) :
    (aplicarDelta db c d x).lotes = db.lotes := rfl

@[simp] theorem aplicarDelta_cajas (db : DB) (c d : Nat) (x : ℚ) :
    (aplicarDelta db c d x).cajas = db.cajas := rfl

@[simp] theorem aplicarDelta_transacciones (db : DB) (c d : Nat) (x : ℚ) :
    (aplicarDelta db c d x).transacciones = db.transacciones := rfl

@[simp] theorem aplicarDelta_caja_saldos (db : DB) (c d : Nat) (x : ℚ) :
    (aplicarDelta db c d x).caja_saldos = db.caja_saldos.map (conDelta c d x) := rfl

/-! ## Balance (caja_saldos) lemmas -/

theorem esSaldoDe_conDelta (c' d' c d : Nat) (x : ℚ) (s : CajaSaldo) :
    esSaldoDe c' d' (conDelta c d x s) = esSaldoDe c' d' s := by
  unfold conDelta; split <;> simp [esSaldoDe]

theorem saldoActualL_map_conDelta_self (l : List CajaSaldo) (c d : Nat) (x : ℚ)
    (h : existeSaldoL l c d = true) :
    saldoActualL (l.map (conDelta c d x)) c d = saldoActualL l c d + x := by
  unfold saldoActualL
  rw [List.find?_map]
  have hcomp : (esSaldoDe c d ∘ conDelta c d x) = esSaldoDe c d :=
    funext fun s => esSaldoDe_conDelta c d c d x s
  rw [hcomp]
  unfold existeSaldoL at h
  rw [List.any_eq_true] at h
  obtain ⟨s, hs, hp⟩ := h
  cases hf : l.find? (esSaldoDe c d) with
  | none =>
    rw [List.find?_eq_none] at hf
    exact absurd hp (hf s hs)
  | some s0 =>
    have hp0 := List.find?_some hf
    simp [conDelta, hp0]

theorem saldoActualL_map_conDelta_other (l : List CajaSaldo) (c d c' d' : Nat) (x : ℚ)
    (h : ¬(c' = c ∧ d' = d)) :
    saldoActualL (l.map (conDelta c d x)) c' d' = saldoActualL l c' d' := by
  unfold saldoActualL
  rw [List.find?_map]
  have hcomp : (esSaldoDe c' d' ∘ conDelta c d x) = esSaldoDe c' d' :=
    funext fun s => esSaldoDe_conDelta c' d' c d x s
  rw [hcomp]
  cases hf : l.find? (esSaldoDe c' d') with
  | none => rfl
  | some s0 =>
    have hp0 := List.find?_some hf
    unfold esSaldoDe at hp0
    simp only [decide_eq_true_eq] at hp0
    have : conDelta c d x s0 = s0 := by
      unfold conDelta
      rw [if_neg]
      unfold esSaldoDe
      simp only [decide_eq_true_eq, Bool.not_eq_true]
      rintro ⟨h1, h2⟩
      exact h ⟨hp0.1 ▸ h1, hp0.2 ▸ h2⟩
    simp [this]

theorem existeSaldoL_map_conDelta (l : List CajaSaldo) (c d c' d' : Nat) (x : ℚ) :
    existeSaldoL (l.map (conDelta c d x)) c' d' = existeSaldoL l c' d' := by
  unfold existeSaldoL
  rw [List.any_map]
  have hcomp : (esSaldoDe c' d' ∘ conDelta c d x) = esSaldoDe c' d' :=
    funext fun s => esSaldoDe_conDelta c' d' c d x s
  rw [hcomp]

theorem saldoActualDe_ensureSaldo (db : DB) (c d c' d' : Nat) :
    saldoActualDe (ensureSaldo db c d) c' d' = saldoActualDe db c' d' := by
  unfold ensureSaldo
  split
  · rfl
  · rename_i h
    unfold saldoActualDe saldoActualL existeSaldo existeSaldoL at *
    simp only [List.find?_append]
    cases hf : db.caja_saldos.find? (esSaldoDe c' d') with
    | some s => simp
    | none =>
      simp only [Option.none_or]
      by_cases hm : esSaldoDe c' d' ⟨c, d, 0, 0⟩
      · rw [List.find?_cons_of_pos _ hm]
      · rw [List.find?_cons_of_neg _ hm]
        rfl

theorem existeSaldo_ensureSaldo_self (db : DB) (c d : Nat) :
    existeSaldo (ensureSaldo db c d) c d = true := by
  unfold ensureSaldo
  split
  · assumption
  · unfold existeSaldo existeSaldoL
    simp [List.any_append, esSaldoDe]

theorem existeSaldo_ensureSaldo_mono (db : DB) (c d c' d' : Nat)
    (h : existeSaldo db c' d' = true) :
    existeSaldo (ensureSaldo db c d) c' d' = true := by
  unfold ensureSaldo
  split
  · exact h
  · unfold existeSaldo existeSaldoL at *
    simp [List.any_append, h]

/-! ## Shape lemmas for `finalizarTx` and `aplicarTx` -/

theorem finalizarTx_snd (db : DB) (uid : Nat) (inp : TxInput) (caja : Caja)
    (d : Divisa) (total : ℚ) (ut : Option ℚ) (com : ℚ) :
    (finalizarTx db uid inp caja d total ut com).2 = ⟨db.next_tx_id, ut⟩ := by
  rcases inp with ⟨tipo, _, _, _, _, _, _⟩
  cases tipo <;> cases ut <;> rfl

theorem finalizarTx_transacciones (db : DB) (uid : Nat) (inp : TxInput) (caja : Caja)
    (d : Divisa) (total : ℚ) (ut : Option ℚ) (com : ℚ) :
    (finalizarTx db uid inp caja d total ut com).1.transacciones =
      db.transacciones ++
        [⟨db.next_tx_id, caja.id, inp.tipo, inp.divisa_id, inp.cliente_id, inp.monto,
          com, inp.tasa, total, ut, uid, ""⟩] := by
  rcases inp with ⟨tipo, _, _, _, _, _, _⟩
  cases tipo <;> cases ut <;> rfl

theorem finalizarTx_lotes (db : DB) (uid : Nat) (inp : TxInput) (caja : Caja)
    (d : Divisa) (total : ℚ) (ut : Option ℚ) (com : ℚ) :
    (finalizarTx db uid inp caja d total ut com).1.lotes = db.lotes := by
  rcases inp with ⟨tipo, _, _, _, _, _, _⟩
  cases tipo <;> cases ut <;> rfl

theorem finalizarTx_next_caja_id (db : DB) (uid : Nat) (inp : TxInput) (caja : Caja)
    (d : Divisa) (total : ℚ) (ut : Option ℚ) (com : ℚ) :
    (finalizarTx db uid inp caja d total ut com).1.next_caja_id = db.next_caja_id := by
  rcases inp with ⟨tipo, _, _, _, _, _, _⟩
  cases tipo <;> cases ut <;> rfl

theorem finalizarTx_cajas_compra (db : DB) (uid : Nat) (inp : TxInput) (caja : Caja)
    (d : Divisa) (total : ℚ) (com : ℚ) (h : inp.tipo = .COMPRA) (ut : Option ℚ) :
    (finalizarTx db uid inp caja d total ut com).1.cajas = db.cajas := by
  rcases inp with ⟨tipo, _, _, _, _, _, _⟩
  cases tipo
  · cases ut <;> rfl
  · exact absurd h (by simp)

theorem finalizarTx_cajas_venta (db : DB) (uid : Nat) (inp : TxInput) (caja : Caja)
    (d : Divisa) (total : ℚ) (com u : ℚ) (h : inp.tipo = .VENTA) :
    (finalizarTx db uid inp caja d total (some u) com).1.cajas =
      db.cajas.map (conUtilidad caja.id u) := by
  rcases inp with ⟨tipo, _, _, _, _, _, _⟩
  cases tipo
  · exact absurd h (by simp)
  · rfl

theorem finalizarTx_caja_saldos (db : DB) (uid : Nat) (inp : TxInput) (caja : Caja)
    (d : Divisa) (total : ℚ) (ut : Option ℚ) (com : ℚ) :
    (finalizarTx db uid inp caja d total ut com).1.caja_saldos =
      (db.caja_saldos.map (conDelta caja.id 1 (deltaPen inp.tipo total))).map
        (conDelta caja.id inp.divisa_id (deltaDiv inp.tipo inp.monto)) := by
  rcases inp with ⟨tipo, _, _, _, _, _, _⟩
  cases tipo <;> cases ut <;> rfl

theorem aplicarTx_venta (db : DB) (uid : Nat) (inp : TxInput) (caja : Caja)
    (d : Divisa) (total : ℚ) (h : inp.tipo = .VENTA) :
    aplicarTx db uid inp caja d total =
      finalizarTx
        { ensureSaldo (ensureSaldo db caja.id 1) caja.id inp.divisa_id with
          lotes := lotesTrasVenta db.lotes (lotesDisponibles db inp.divisa_id caja.id) inp.monto }
        uid inp caja d total
        (some (round2 (total -
          costoVenta (lotesDisponibles db inp.divisa_id caja.id) inp.monto d.tasa_compra)))
        (round2 (total -
          costoVenta (lotesDisponibles db inp.divisa_id caja.id) inp.monto d.tasa_compra)) := by
  rcases inp with ⟨tipo, dv, cl, m, t, ts, co⟩
  cases tipo
  · exact absurd h (by simp)
  · simp [aplicarTx, lotesDisponibles]

theorem aplicarTx_compra (db : DB) (uid : Nat) (inp : TxInput) (caja : Caja)
    (d : Divisa) (total : ℚ) (h : inp.tipo = .COMPRA) :
    aplicarTx db uid inp caja d total =
      finalizarTx
        { ensureSaldo (ensureSaldo db caja.id 1) caja.id inp.divisa_id with
          lotes := db.lotes ++
            [⟨db.next_lote_id, inp.divisa_id, caja.id, inp.monto, inp.tasa, true⟩]
          next_lote_id := db.next_lote_id + 1 }
        uid inp caja d total none inp.comision := by
  rcases inp with ⟨tipo, dv, cl, m, t, ts, co⟩
  cases tipo
  · simp [aplicarTx]
  · exact absurd h (by simp)

/-! ## Inversion of the fail-fast checks -/

/-- All the conditions under which `POST /api/transacciones` reaches its
mutation phase.  Note none of them mentions the till's balances or
inventory. -/
structure ChequeosOk (db : DB) (uid : Nat) (inp : TxInput) (caja : Caja) (d : Divisa) : Prop where
  valid : 0 < inp.monto ∧ 0 < inp.tasa ∧ 0 < inp.total_soles ∧
    0 ≤ inp.comision ∧ 2 ≤ inp.divisa_id
  caja_eq : cajaAbiertaDe db uid = some caja
  divisa_eq : divisaPorId db inp.divisa_id = some d
  tasa_ok : |inp.tasa - tasaRef inp.tipo d| ≤ 1/10
  total_ok : |round2 (inp.monto * inp.tasa) - inp.total_soles| ≤ 1/100
  cliente_ok : ¬(round2 (inp.monto * inp.tasa) > 10000 ∧ inp.cliente_id = none)

theorem chequeos_eq_ok_iff (db : DB) (uid : Nat) (inp : TxInput) (caja : Caja)
    (d : Divisa) (total : ℚ) :
    chequeos db uid inp = .ok (caja, d, total) ↔
      ChequeosOk db uid inp caja d ∧ total = round2 (inp.monto * inp.tasa) := by
  constructor
  · intro h
    unfold chequeos at h
    split at h
    · simp at h
    rename_i hvalid
    rw [not_not] at hvalid
    split at h
    · simp at h
    rename_i caja0 hcaja
    split at h
    · simp at h
    rename_i d0 hdiv
    split at h
    · simp at h
    rename_i htasa
    split at h
    · simp at h
    rename_i htotal
    split at h
    · simp at h
    rename_i hcliente
    simp only [Except.ok.injEq, Prod.mk.injEq] at h
    obtain ⟨h1, h2, h3⟩ := h
    subst h1; subst h2; subst h3
    exact ⟨⟨hvalid, hcaja, hdiv, not_lt.mp htasa, not_lt.mp htotal, hcliente⟩, rfl⟩
  · rintro ⟨⟨hvalid, hcaja, hdiv, htasa, htotal, hcliente⟩, rfl⟩
    simp only [chequeos, hcaja, hdiv]
    rw [if_neg (not_not_intro hvalid), if_neg (not_lt.mpr htasa),
      if_neg (not_lt.mpr htotal), if_neg hcliente]

/-- Inversion of the whole handler: success happens exactly when the checks
pass, and the final state is the mutation phase applied to the original
state. -/
theorem registrar_eq_ok_iff (db : DB) (uid : Nat) (inp : TxInput) (db' : DB) (r : TxResult) :
    registrarTransaccion db uid inp = .ok (db', r) ↔
      ∃ caja d, ChequeosOk db uid inp caja d ∧
        (db', r) = aplicarTx db uid inp caja d (round2 (inp.monto * inp.tasa)) := by
  constructor
  · intro h
    unfold registrarTransaccion at h
    cases hc : chequeos db uid inp with
    | error e => rw [hc] at h; exact absurd h (by simp)
    | ok v =>
      obtain ⟨caja, d, total⟩ := v
      rw [hc] at h
      obtain ⟨hok, rfl⟩ := (chequeos_eq_ok_iff db uid inp caja d total).mp hc
      exact ⟨caja, d, hok, by simpa using h.symm⟩
  · rintro ⟨caja, d, hok, heq⟩
    unfold registrarTransaccion
    rw [(chequeos_eq_ok_iff db uid inp caja d _).mpr ⟨hok, rfl⟩]
    simp [heq]

/-! ## Till lookup and lifecycle lemmas -/

theorem maxPorId_mem : ∀ {l : List Caja} {c : Caja}, maxPorId l = some c → c ∈ l := by
  intro l
  induction l with
  | nil => intro c h; exact Option.noConfusion h
  | cons a as ih =>
    intro c h
    unfold maxPorId at h
    cases hm : maxPorId as with
    | none =>
      rw [hm] at h
      simp at h
      subst h
      exact List.mem_cons_self a as
    | some m =>
      rw [hm] at h
      by_cases hle : m.id ≤ a.id
      · simp [hle] at h
        subst h
        exact List.mem_cons_self a as
      · simp [hle] at h
        subst h
        exact List.mem_cons_of_mem a (ih hm)

theorem maxPorId_eq_none {l : List Caja} : maxPorId l = none ↔ l = [] := by
  cases l with
  | nil => exact ⟨fun _ => rfl, fun _ => rfl⟩
  | cons a as =>
    constructor
    · intro h
      exfalso
      unfold maxPorId at h
      cases hm : maxPorId as with
      | none => rw [hm] at h; simp at h
      | some m =>
        rw [hm] at h
        by_cases hle : m.id ≤ a.id
        · simp [hle] at h
        · simp [hle] at h
    · intro h
      exact absurd h (by simp)

theorem mem_abiertasDe {db : DB} {uid : Nat} {c : Caja} :
    c ∈ abiertasDe db uid ↔
      c ∈ db.cajas ∧ c.estado = EstadoCaja.ABIERTA ∧ c.usuario_id = uid := by
  simp [abiertasDe, List.mem_filter, and_assoc]

theorem cajaAbiertaDe_mem {db : DB} {uid : Nat} {c : Caja}
    (h : cajaAbiertaDe db uid = some c) :
    c ∈ db.cajas ∧ c.estado = EstadoCaja.ABIERTA ∧ c.usuario_id = uid :=
  mem_abiertasDe.mp (maxPorId_mem h)

theorem seedSaldos_cajas (db0 : DB) (cid : Nat) :
    ∀ (s : List (String × ℚ)) (acc : DB), (seedSaldos db0 cid s acc).cajas = acc.cajas := by
  intro s
  induction s with
  | nil => intro acc; rfl
  | cons p ps ih =>
    intro acc
    unfold seedSaldos
    cases divisaIdDe db0 p.1 <;> simp [ih]

theorem seedSaldos_transacciones (db0 : DB) (cid : Nat) :
    ∀ (s : List (String × ℚ)) (acc : DB),
      (seedSaldos db0 cid s acc).transacciones = acc.transacciones := by
  intro s
  induction s with
  | nil => intro acc; rfl
  | cons p ps ih =>
    intro acc
    unfold seedSaldos
    cases divisaIdDe db0 p.1 <;> simp [ih]

theorem seedSaldos_next_caja_id (db0 : DB) (cid : Nat) :
    ∀ (s : List (String × ℚ)) (acc : DB),
      (seedSaldos db0 cid s acc).next_caja_id = acc.next_caja_id := by
  intro s
  induction s with
  | nil => intro acc; rfl
  | cons p ps ih =>
    intro acc
    unfold seedSaldos
    cases divisaIdDe db0 p.1 <;> simp [ih]

theorem seedSaldos_lotes (db0 : DB) (cid : Nat) :
    ∀ (s : List (String × ℚ)) (acc : DB), (seedSaldos db0 cid s acc).lotes = acc.lotes := by
  intro s
  induction s with
  | nil => intro acc; rfl
  | cons p ps ih =>
    intro acc
    unfold seedSaldos
    cases divisaIdDe db0 p.1 <;> simp [ih]

/-- Inversion of a successful till opening. -/
theorem abrir_ok_inv {db db' : DB} {uid cid : Nat} {s : List (String × ℚ)}
    {desc : Option String} (h : abrirCaja db uid s desc = .ok (db', cid)) :
    abiertasDe db uid = [] ∧ cid = db.next_caja_id ∧
      db'.cajas = db.cajas ++ [⟨db.next_caja_id, uid, EstadoCaja.ABIERTA, 0⟩] ∧
      db'.transacciones = db.transacciones ∧
      db'.next_caja_id = db.next_caja_id + 1 := by
  unfold abrirCaja at h
  split at h
  · simp at h
  split at h
  · simp at h
  rename_i habierta
  rw [not_not] at habierta
  refine ⟨habierta, ?_⟩
  cases desc with
  | some ds =>
    simp only [Except.ok.injEq, Prod.mk.injEq] at h
    obtain ⟨hdb, hcid⟩ := h
    subst hdb
    refine ⟨hcid.symm, ?_, ?_, ?_⟩ <;>
      simp [seedSaldos_cajas, seedSaldos_transacciones, seedSaldos_next_caja_id]
  | none =>
    simp only [Except.ok.injEq, Prod.mk.injEq] at h
    obtain ⟨hdb, hcid⟩ := h
    subst hdb
    refine ⟨hcid.symm, ?_, ?_, ?_⟩ <;>
      simp [seedSaldos_cajas, seedSaldos_transacciones, seedSaldos_next_caja_id]

/-- Inversion of a successful adjustment: only balances and movements
change. -/
theorem ajustar_ok_inv {db db' : DB} {uid cid : Nat} {m t : String} {x : ℚ}
    {ds : String} (h : ajustarCaja db uid m t x ds = .ok (db', cid)) :
    db'.cajas = db.cajas ∧ db'.transacciones = db.transacciones ∧
      db'.next_caja_id = db.next_caja_id ∧ db'.lotes = db.lotes := by
  unfold ajustarCaja at h
  split at h
  · simp at h
  split at h
  · simp at h
  rename_i c hc
  split at h
  · simp at h
  rename_i d hd
  split at h <;> (try split at h) <;>
    (try exact Except.noConfusion h) <;>
    simp only [Except.ok.injEq, Prod.mk.injEq] at h <;>
    obtain ⟨hdb, hcid⟩ := h <;>
    subst hdb <;>
    exact ⟨rfl, rfl, rfl, rfl⟩

/-- Inversion of a successful till close. -/
theorem cerrar_ok_inv {db db' : DB} {uid cid : Nat}
    (h : cerrarCaja db uid = .ok (db', cid)) :
    ∃ c, cajaAbiertaDe db uid = some c ∧ cid = c.id ∧
      db'.cajas = db.cajas.map (fun k =>
        if decide (k.id = c.id) then { k with estado := EstadoCaja.CERRADA } else k) ∧
      db'.transacciones = db.transacciones ∧
      db'.next_caja_id = db.next_caja_id := by
  unfold cerrarCaja at h
  split at h
  · simp at h
  rename_i c hc
  split at h
  · simp at h
  simp only [Except.ok.injEq, Prod.mk.injEq] at h
  obtain ⟨hdb, hcid⟩ := h
  subst hdb
  exact ⟨c, hc, hcid.symm, rfl, rfl, rfl⟩

/-! ## Projections of the mutation phase -/

/-- The `utilidad` value the handler computes: the costing result for a
VENTA, `null` for a COMPRA. -/
def utilidadCalc (db : DB) (inp : TxInput) (caja : Caja) (d : Divisa) (total : ℚ) : Option ℚ :=
  match inp.tipo with
  | .VENTA => some (round2 (total -
      costoVenta (lotesDisponibles db inp.divisa_id caja.id) inp.monto d.tasa_compra))
  | .COMPRA => none

/-- The `comisionFinal` the handler persists: the computed profit for a
VENTA, the caller-supplied commission for a COMPRA. -/
def comisionCalc (db : DB) (inp : TxInput) (caja : Caja) (d : Divisa) (total : ℚ) : ℚ :=
  match inp.tipo with
  | .VENTA => round2 (total -
      costoVenta (lotesDisponibles db inp.divisa_id caja.id) inp.monto d.tasa_compra)
  | .COMPRA => inp.comision

theorem aplicarTx_snd (db : DB) (uid : Nat) (inp : TxInput) (caja : Caja)
    (d : Divisa) (total : ℚ) :
    (aplicarTx db uid inp caja d total).2 = ⟨db.next_tx_id, utilidadCalc db inp caja d total⟩ := by
  cases htipo : inp.tipo
  · rw [aplicarTx_compra db uid inp caja d total htipo, finalizarTx_snd]
    simp [utilidadCalc, htipo]
  · rw [aplicarTx_venta db uid inp caja d total htipo, finalizarTx_snd]
    simp [utilidadCalc, htipo]

theorem aplicarTx_transacciones (db : DB) (uid : Nat) (inp : TxInput) (caja : Caja)
    (d : Divisa) (total : ℚ) :
    (aplicarTx db uid inp caja d total).1.transacciones =
      db.transacciones ++
        [⟨db.next_tx_id, caja.id, inp.tipo, inp.divisa_id, inp.cliente_id, inp.monto,
          comisionCalc db inp caja d total, inp.tasa, total,
          utilidadCalc db inp caja d total, uid, ""⟩] := by
  cases htipo : inp.tipo
  · rw [aplicarTx_compra db uid inp caja d total htipo, finalizarTx_transacciones]
    simp [utilidadCalc, comisionCalc, htipo]
  · rw [aplicarTx_venta db uid inp caja d total htipo, finalizarTx_transacciones]
    simp [utilidadCalc, comisionCalc, htipo]

theorem aplicarTx_next_caja_id (db : DB) (uid : Nat) (inp : TxInput) (caja : Caja)
    (d : Divisa) (total : ℚ) :
    (aplicarTx db uid inp caja d total).1.next_caja_id = db.next_caja_id := by
  cases htipo : inp.tipo
  · rw [aplicarTx_compra db uid inp caja d total htipo, finalizarTx_next_caja_id]
    simp
  · rw [aplicarTx_venta db uid inp caja d total htipo, finalizarTx_next_caja_id]
    simp

theorem aplicarTx_cajas (db : DB) (uid : Nat) (inp : TxInput) (caja : Caja)
    (d : Divisa) (total : ℚ) :
    (aplicarTx db uid inp caja d total).1.cajas =
      match utilidadCalc db inp caja d total with
      | some u => db.cajas.map (conUtilidad caja.id u)
      | none => db.cajas := by
  cases htipo : inp.tipo
  · rw [aplicarTx_compra db uid inp caja d total htipo,
      finalizarTx_cajas_compra _ _ _ _ _ _ _ htipo]
    simp [utilidadCalc, htipo]
  · rw [aplicarTx_venta db uid inp caja d total htipo,
      finalizarTx_cajas_venta _ _ _ _ _ _ _ _ htipo]
    simp [utilidadCalc, htipo]

theorem aplicarTx_lotes_venta (db : DB) (uid : Nat) (inp : TxInput) (caja : Caja)
    (d : Divisa) (total : ℚ) (h : inp.tipo = .VENTA) :
    (aplicarTx db uid inp caja d total).1.lotes =
      lotesTrasVenta db.lotes (lotesDisponibles db inp.divisa_id caja.id) inp.monto := by
  rw [aplicarTx_venta db uid inp caja d total h, finalizarTx_lotes]

theorem aplicarTx_lotes_compra (db : DB) (uid : Nat) (inp : TxInput) (caja : Caja)
    (d : Divisa) (total : ℚ) (h : inp.tipo = .COMPRA) :
    (aplicarTx db uid inp caja d total).1.lotes =
      db.lotes ++ [⟨db.next_lote_id, inp.divisa_id, caja.id, inp.monto, inp.tasa, true⟩] := by
  rw [aplicarTx_compra db uid inp caja d total h, finalizarTx_lotes]

theorem aplicarTx_caja_saldos (db : DB) (uid : Nat) (inp : TxInput) (caja : Caja)
    (d : Divisa) (total : ℚ) :
    (aplicarTx db uid inp caja d total).1.caja_saldos =
      (((ensureSaldo (ensureSaldo db caja.id 1) caja.id inp.divisa_id).caja_saldos.map
          (conDelta caja.id 1 (deltaPen inp.tipo total))).map
        (conDelta caja.id inp.divisa_id (deltaDiv inp.tipo inp.monto))) := by
  cases htipo : inp.tipo
  · rw [aplicarTx_compra db uid inp caja d total htipo, finalizarTx_caja_saldos]
    simp [htipo]
  · rw [aplicarTx_venta db uid inp caja d total htipo, finalizarTx_caja_saldos]
    simp [htipo]

/-! ## The accumulated-profit invariant (reachable states) -/

/-- The VENTA-transactions-of-this-till predicate. -/
def esVentaDe (cid : Nat) (t : Transaccion) : Bool :=
  decide (t.caja_id = cid ∧ t.tipo = TipoTx.VENTA)

/-- Sum of the recorded `utilidad` over the SELL transactions of one till. -/
def sumUtilidades (ts : List Transaccion) (cid : Nat) : ℚ :=
  ((ts.filter (esVentaDe cid)).map fun t => t.utilidad.getD 0).sum

theorem sumUtilidades_append (ts : List Transaccion) (t : Transaccion) (cid : Nat) :
    sumUtilidades (ts ++ [t]) cid =
      sumUtilidades ts cid + (if esVentaDe cid t then t.utilidad.getD 0 else 0) := by
  unfold sumUtilidades
  rw [List.filter_append, List.map_append, List.sum_append]
  congr 1
  by_cases hp : esVentaDe cid t <;> simp [hp]

theorem sumUtilidades_eq_zero (ts : List Transaccion) (cid : Nat)
    (h : ∀ t ∈ ts, t.caja_id ≠ cid) : sumUtilidades ts cid = 0 := by
  unfold sumUtilidades
  have : ts.filter (esVentaDe cid) = [] := by
    rw [List.filter_eq_nil]
    intro t ht
    simp [esVentaDe]
    intro hc
    exact absurd hc (h t ht)
  rw [this]
  rfl

/-- All the database states the API can produce: the empty database (with
any currency registry), registry administration (src/routes/divisas.js,
which touches only the `divisas` tables), and the four till operations. -/
inductive Alcanzable : DB → Prop where
  | inicial (divisas : List Divisa) : Alcanzable (DB.inicial divisas)
  | registro {db : DB} (ds : List Divisa) :
      Alcanzable db → Alcanzable { db with divisas := ds }
  | abrir {db db' : DB} {uid cid : Nat} {s : List (String × ℚ)} {desc : Option String} :
      Alcanzable db → abrirCaja db uid s desc = .ok (db', cid) → Alcanzable db'
  | ajustar {db db' : DB} {uid cid : Nat} {m t : String} {x : ℚ} {ds : String} :
      Alcanzable db → ajustarCaja db uid m t x ds = .ok (db', cid) → Alcanzable db'
  | cerrar {db db' : DB} {uid cid : Nat} :
      Alcanzable db → cerrarCaja db uid = .ok (db', cid) → Alcanzable db'
  | transaccion {db db' : DB} {uid : Nat} {inp : TxInput} {r : TxResult} :
      Alcanzable db → registrarTransaccion db uid inp = .ok (db', r) → Alcanzable db'

/-- The inductive invariant: till ids are below the id counter,
transactions point at existing (hence id-bounded) tills, and every till's
`utilidad_total` is the sum of its SELL transactions' `utilidad`. -/
def InvUtilidad (db : DB) : Prop :=
  (∀ c ∈ db.cajas, c.id < db.next_caja_id) ∧
  (∀ t ∈ db.transacciones, t.caja_id < db.next_caja_id) ∧
  (∀ c ∈ db.cajas, c.utilidad_total = sumUtilidades db.transacciones c.id)

theorem alcanzable_invUtilidad {db : DB} (h : Alcanzable db) : InvUtilidad db := by
  induction h with
  | inicial ds =>
    refine ⟨?_, ?_, ?_⟩ <;> (intro c hc; exact absurd hc (List.not_mem_nil c))
  | registro ds _ ih =>
    exact ⟨ih.1, ih.2.1, ih.2.2⟩
  | @abrir db db' uid cid s desc _ hok ih =>
    obtain ⟨_, _, hcajas, htx, hnext⟩ := abrir_ok_inv hok
    obtain ⟨ih1, ih2, ih3⟩ := ih
    refine ⟨?_, ?_, ?_⟩
    · intro c hc
      rw [hcajas] at hc
      rw [hnext]
      rcases List.mem_append.mp hc with hc | hc
      · exact Nat.lt_succ_of_lt (ih1 c hc)
      · simp at hc
        subst hc
        exact Nat.lt_succ_self _
    · intro t ht
      rw [htx] at ht
      rw [hnext]
      exact Nat.lt_succ_of_lt (ih2 t ht)
    · intro c hc
      rw [hcajas] at hc
      rw [htx]
      rcases List.mem_append.mp hc with hc | hc
      · exact ih3 c hc
      · simp at hc
        subst hc
        have hno : ∀ t ∈ db.transacciones, t.caja_id ≠ db.next_caja_id := fun t ht =>
          Nat.ne_of_lt (ih2 t ht)
        simpa using (sumUtilidades_eq_zero _ _ hno).symm
  | ajustar _ hok ih =>
    obtain ⟨hcajas, htx, hnext, _⟩ := ajustar_ok_inv hok
    rw [InvUtilidad, hcajas, htx, hnext]
    exact ih
  | cerrar _ hok ih =>
    obtain ⟨c0, _, _, hcajas, htx, hnext⟩ := cerrar_ok_inv hok
    obtain ⟨ih1, ih2, ih3⟩ := ih
    refine ⟨?_, ?_, ?_⟩
    · intro c hc
      rw [hcajas] at hc
      rw [hnext]
      obtain ⟨k, hk, hkc⟩ := List.mem_map.mp hc
      have hid : c.id = k.id := by
        subst hkc
        split <;> rfl
      rw [hid]
      exact ih1 k hk
    · intro t ht
      rw [htx] at ht
      rw [hnext]
      exact ih2 t ht
    · intro c hc
      rw [hcajas] at hc
      rw [htx]
      obtain ⟨k, hk, hkc⟩ := List.mem_map.mp hc
      have hid : c.id = k.id := by
        subst hkc
        split <;> rfl
      have hut : c.utilidad_total = k.utilidad_total := by
        subst hkc
        split <;> rfl
      rw [hid, hut]
      exact ih3 k hk
  | @transaccion db db' uid inp r _ hok ih =>
    obtain ⟨caja, d, hchk, heq⟩ := (registrar_eq_ok_iff db uid inp db' r).mp hok
    obtain ⟨ih1, ih2, ih3⟩ := ih
    have hdb' : db' = (aplicarTx db uid inp caja d (round2 (inp.monto * inp.tasa))).1 :=
      congrArg Prod.fst heq
    have hmem := cajaAbiertaDe_mem hchk.caja_eq
    have hcajas : db'.cajas =
        match utilidadCalc db inp caja d (round2 (inp.monto * inp.tasa)) with
        | some u => db.cajas.map (conUtilidad caja.id u)
        | none => db.cajas := by
      rw [hdb']
      exact aplicarTx_cajas db uid inp caja d _
    have htx : db'.transacciones = db.transacciones ++
        [⟨db.next_tx_id, caja.id, inp.tipo, inp.divisa_id, inp.cliente_id, inp.monto,
          comisionCalc db inp caja d (round2 (inp.monto * inp.tasa)), inp.tasa,
          round2 (inp.monto * inp.tasa),
          utilidadCalc db inp caja d (round2 (inp.monto * inp.tasa)), uid, ""⟩] := by
      rw [hdb']
      exact aplicarTx_transacciones db uid inp caja d _
    have hnext : db'.next_caja_id = db.next_caja_id := by
      rw [hdb']
      exact aplicarTx_next_caja_id db uid inp caja d _
    refine ⟨?_, ?_, ?_⟩
    · intro c hc
      rw [hcajas] at hc
      rw [hnext]
      cases hu : utilidadCalc db inp caja d (round2 (inp.monto * inp.tasa)) with
      | none =>
        rw [hu] at hc
        exact ih1 c hc
      | some u =>
        rw [hu] at hc
        obtain ⟨k, hk, hkc⟩ := List.mem_map.mp hc
        have hid : c.id = k.id := by
          subst hkc
          unfold conUtilidad
          split <;> rfl
        rw [hid]
        exact ih1 k hk
    · intro t ht
      rw [htx] at ht
      rw [hnext]
      rcases List.mem_append.mp ht with ht | ht
      · exact ih2 t ht
      · simp at ht
        subst ht
        exact ih1 caja hmem.1
    · intro c hc
      rw [hcajas] at hc
      rw [htx, sumUtilidades_append]
      cases htipo : inp.tipo with
      | COMPRA =>
        have hu : utilidadCalc db inp caja d (round2 (inp.monto * inp.tasa)) = none := by
          unfold utilidadCalc
          rw [htipo]
        rw [hu] at hc
        have hnoventa : esVentaDe c.id
            (⟨db.next_tx_id, caja.id, TipoTx.COMPRA, inp.divisa_id, inp.cliente_id, inp.monto,
              comisionCalc db inp caja d (round2 (inp.monto * inp.tasa)), inp.tasa,
              round2 (inp.monto * inp.tasa),
              utilidadCalc db inp caja d (round2 (inp.monto * inp.tasa)), uid, ""⟩ :
              Transaccion) = false := by
          simp [esVentaDe]
        rw [hnoventa]
        simpa using ih3 c hc
      | VENTA =>
        have hu : utilidadCalc db inp caja d (round2 (inp.monto * inp.tasa)) =
            some (round2 (round2 (inp.monto * inp.tasa) -
              costoVenta (lotesDisponibles db inp.divisa_id caja.id) inp.monto
                d.tasa_compra)) := by
          unfold utilidadCalc
          rw [htipo]
        rw [hu] at hc
        obtain ⟨k, hk, hkc⟩ := List.mem_map.mp hc
        by_cases hid : k.id = caja.id
        · have hcid : c.id = caja.id := by
            subst hkc
            unfold conUtilidad
            rw [if_pos (by simpa using hid)]
            exact hid
          have hcut : c.utilidad_total = k.utilidad_total +
              round2 (round2 (inp.monto * inp.tasa) -
                costoVenta (lotesDisponibles db inp.divisa_id caja.id) inp.monto
                  d.tasa_compra) := by
            subst hkc
            unfold conUtilidad
            rw [if_pos (by simpa using hid)]
          have hck : c.id = k.id := hcid.trans hid.symm
          rw [hcut, ih3 k hk, hck]
          have hventa : esVentaDe k.id
              (⟨db.next_tx_id, caja.id, TipoTx.VENTA, inp.divisa_id, inp.cliente_id, inp.monto,
                comisionCalc db inp caja d (round2 (inp.monto * inp.tasa)), inp.tasa,
                round2 (inp.monto * inp.tasa),
                utilidadCalc db inp caja d (round2 (inp.monto * inp.tasa)), uid, ""⟩ :
                Transaccion) = true := by
            simp [esVentaDe, hid]
          rw [hventa]
          simp [hu]
        · have hcid : c.id = k.id := by
            subst hkc
            unfold conUtilidad
            rw [if_neg (by simpa using hid)]
          have hcut : c.utilidad_total = k.utilidad_total := by
            subst hkc
            unfold conUtilidad
            rw [if_neg (by simpa using hid)]
          have hnoventa : esVentaDe c.id
              (⟨db.next_tx_id, caja.id, TipoTx.VENTA, inp.divisa_id, inp.cliente_id, inp.monto,
                comisionCalc db inp caja d (round2 (inp.monto * inp.tasa)), inp.tasa,
                round2 (inp.monto * inp.tasa),
                utilidadCalc db inp caja d (round2 (inp.monto * inp.tasa)), uid, ""⟩ :
                Transaccion) = false := by
            simp only [esVentaDe, decide_eq_false_iff_not]
            rintro ⟨hcc, -⟩
            exact hid (hcid ▸ hcc ▸ rfl)
          rw [hcut, hnoventa, hcid]
          simpa using ih3 k hk

/-! ## The costing the spec prescribes (for comparison with the code) -/

/-- The spec's consumeFIFO walk, for comparison with `costoVenta`: the
(consumed_i, unitCost_i) pairs over the lots actually touched. -/
def consumoSpec : List Lote → ℚ → List (ℚ × ℚ)
  | [], _ => []
  | l :: ls, restante =>
    if restante ≤ 0 then []
    else (min restante l.monto, l.costo_base) ::
      consumoSpec ls (restante - min restante l.monto)

/-- The realized cost the spec prescribes, for comparison with
`costoVenta`: the covered portion priced over touched lots only
(Σ consumed_i × unitCost_i, which equals covered × the weighted average
over touched lots), plus the uncovered remainder at the reference buy
rate. -/
def costoVentaSpec (ls : List Lote) (monto tasa_compra : ℚ) : ℚ :=
  ((consumoSpec ls monto).map fun p => p.1 * p.2).sum +
    (monto - ((consumoSpec ls monto).map fun p => p.1).sum) * tasa_compra

/-! ## Concrete example data -/

/-- Result projection: the `utilidad` of a transaction call. -/
def utilidadResultado (e : Except String (DB × TxResult)) : Option (Option ℚ) :=
  match e with
  | .ok p => some p.2.utilidad
  | .error _ => none

/-- Result projection: remaining amount and availability of every lot. -/
def lotesResultado (e : Except String (DB × TxResult)) : Option (List (ℚ × Bool)) :=
  match e with
  | .ok p => some (p.1.lotes.map fun l => (l.monto, l.disponible))
  | .error _ => none

/-- Result projection: the movement log after a till operation. -/
def movsResultado (e : Except String (DB × Nat)) : Option (List Movimiento) :=
  match e with
  | .ok p => some p.1.movimientos
  | .error _ => none

/-- USD at reference buy rate 3.40 and sell rate 3.60. -/
def divisaUSD : Divisa := ⟨2, "USD", 17/5, 18/5, none⟩

/-- An open till of operator 1. -/
def cajaEj : Caja := ⟨1, 1, EstadoCaja.ABIERTA, 0⟩

/-- Till state with two available USD lots: 5 @ 3.00 and 5 @ 3.20. -/
def dbEj1 : DB :=
  ⟨[divisaUSD], [cajaEj], [⟨1, 1, 1000, 1000⟩, ⟨1, 2, 10, 10⟩],
   [⟨1, 2, 1, 5, 3, true⟩, ⟨2, 2, 1, 5, 16/5, true⟩], [], [], 2, 3, 1⟩

/-- SELL 7 USD at 3.60 (claimed total 25.20). -/
def inpEj1 : TxInput := ⟨.VENTA, 2, none, 7, 18/5, 126/5, 0⟩

/-- The state and result produced by `inpEj1` on `dbEj1`. -/
def resEj1 : DB × TxResult :=
  ((registrarTransaccion dbEj1 1 inpEj1).toOption).getD (dbEj1, ⟨0, none⟩)

/-- Till state with a single available USD lot 5 @ 3.00 (insufficient for
a sale of 7). -/
def dbEj2 : DB :=
  ⟨[divisaUSD], [cajaEj], [⟨1, 1, 1000, 1000⟩, ⟨1, 2, 5, 5⟩],
   [⟨1, 2, 1, 5, 3, true⟩], [], [], 2, 2, 1⟩

/-- The state and result produced by `inpEj1` on `dbEj2`. -/
def resEj2 : DB × TxResult :=
  ((registrarTransaccion dbEj2 1 inpEj1).toOption).getD (dbEj2, ⟨0, none⟩)

/-- SELL 8 USD at 3.60 (claimed total 28.80). -/
def inpEj3 : TxInput := ⟨.VENTA, 2, none, 8, 18/5, 144/5, 0⟩

/-! ## C1 -/

/-- C1 (counterexample): on lots [5 @ 3.00, 5 @ 3.20], a SELL of 7 USD at
3.60 is priced by the code at utilidad 3.50, while the claim's touched-lots
weighted-average formula gives 25.20 − (5×3.00 + 2×3.20) = 3.80.  The code
averages over all available lots (cost 7 × 3.10 = 21.70), not over the
lots the FIFO walk touches (cost 21.40). -/
theorem C1_contraejemplo :
    utilidadResultado (registrarTransaccion dbEj1 1 inpEj1) = some (some (7/2)) ∧
    round2 (round2 (7 * (18/5)) -
      costoVentaSpec (lotesDisponibles dbEj1 2 1) 7 (17/5)) = 19/5 ∧
    (7/2 : ℚ) ≠ 19/5 := by
  refine ⟨by with_unfolding_all decide, by with_unfolding_all decide, by with_unfolding_all decide⟩

/-- C1 (amended): for every SELL whose available lots (for the currency
and till) are non-empty and cover the amount, the recorded utilidad equals
homeTotal minus amount × the weighted-average unit cost over ALL available
lots — Σ(lot.amount × lot.unitCost) / Σ(lot.amount) over the whole
selection, not just the lots touched by the FIFO walk — rounded to cents. -/
theorem C1_enmendada (db : DB) (uid : Nat) (inp : TxInput) (db' : DB)
    (r : TxResult) (caja : Caja) (d : Divisa)
    (hv : inp.tipo = .VENTA)
    (hok : registrarTransaccion db uid inp = .ok (db', r))
    (hcaja : cajaAbiertaDe db uid = some caja)
    (hd : divisaPorId db inp.divisa_id = some d)
    (hls : lotesDisponibles db inp.divisa_id caja.id ≠ [])
    (hcov : sumaMontos (lotesDisponibles db inp.divisa_id caja.id) ≥ inp.monto) :
    r.utilidad = some (round2 (round2 (inp.monto * inp.tasa) -
      inp.monto * costoPonderadoDe (lotesDisponibles db inp.divisa_id caja.id))) := by
  obtain ⟨caja', d', hchk, heq⟩ := (registrar_eq_ok_iff db uid inp db' r).mp hok
  obtain rfl : caja = caja' := Option.some.inj (hcaja.symm.trans hchk.caja_eq)
  obtain rfl : d = d' := Option.some.inj (hd.symm.trans hchk.divisa_eq)
  have hr : r = (aplicarTx db uid inp caja d (round2 (inp.monto * inp.tasa))).2 :=
    congrArg Prod.snd heq
  rw [hr, aplicarTx_snd]
  unfold utilidadCalc
  rw [hv]
  unfold costoVenta
  rw [if_pos (by simpa using hls), if_pos hcov]

/-- C1 (witness): the amended theorem applied to the concrete
two-lot state. -/
theorem C1_testigo :
    resEj1.2.utilidad = some (round2 (round2 ((7 : ℚ) * (18/5)) -
      7 * costoPonderadoDe (lotesDisponibles dbEj1 2 1))) :=
  C1_enmendada dbEj1 1 inpEj1 resEj1.1 resEj1.2 cajaEj divisaUSD rfl
    (by with_unfolding_all rfl) (by with_unfolding_all decide)
    (by with_unfolding_all decide) (by with_unfolding_all decide)
    (by with_unfolding_all decide)

/-! ## C2 -/

/-- C2 (counterexample): on a single available lot 5 @ 3.00, a SELL of 7
USD at 3.60 is priced by the code entirely at the reference buy rate
(utilidad 25.20 − 7 × 3.40 = 1.40) and consumes no lot; the claim's
blended formula (5 @ 3.00 covered, 2 @ 3.40 uncovered) gives 3.40. -/
theorem C2_contraejemplo :
    utilidadResultado (registrarTransaccion dbEj2 1 inpEj1) = some (some (7/5)) ∧
    round2 (round2 (7 * (18/5)) -
      costoVentaSpec (lotesDisponibles dbEj2 2 1) 7 (17/5)) = 17/5 ∧
    (7/5 : ℚ) ≠ 17/5 ∧
    lotesResultado (registrarTransaccion dbEj2 1 inpEj1) = some [(5, true)] := by
  refine ⟨by with_unfolding_all decide, by with_unfolding_all decide, by with_unfolding_all decide, by with_unfolding_all decide⟩

/-- C2 (amended): for every SELL whose available lots are empty or do not
cover the amount, the code prices the ENTIRE amount at the currency's
reference buy rate `tasa_compra` (no blending of covered and uncovered
portions) and consumes no lot at all: utilidad = homeTotal − amount ×
tasa_compra rounded to cents, and the inventory table is left unchanged. -/
theorem C2_enmendada (db : DB) (uid : Nat) (inp : TxInput) (db' : DB)
    (r : TxResult) (caja : Caja) (d : Divisa)
    (hv : inp.tipo = .VENTA)
    (hok : registrarTransaccion db uid inp = .ok (db', r))
    (hcaja : cajaAbiertaDe db uid = some caja)
    (hd : divisaPorId db inp.divisa_id = some d)
    (hins : lotesDisponibles db inp.divisa_id caja.id = [] ∨
      sumaMontos (lotesDisponibles db inp.divisa_id caja.id) < inp.monto) :
    r.utilidad = some (round2 (round2 (inp.monto * inp.tasa) -
      inp.monto * d.tasa_compra)) ∧
    db'.lotes = db.lotes := by
  obtain ⟨caja', d', hchk, heq⟩ := (registrar_eq_ok_iff db uid inp db' r).mp hok
  obtain rfl : caja = caja' := Option.some.inj (hcaja.symm.trans hchk.caja_eq)
  obtain rfl : d = d' := Option.some.inj (hd.symm.trans hchk.divisa_eq)
  have hr : r = (aplicarTx db uid inp caja d (round2 (inp.monto * inp.tasa))).2 :=
    congrArg Prod.snd heq
  have hdb' : db' = (aplicarTx db uid inp caja d (round2 (inp.monto * inp.tasa))).1 :=
    congrArg Prod.fst heq
  have hcosto : costoVenta (lotesDisponibles db inp.divisa_id caja.id) inp.monto
      d.tasa_compra = inp.monto * d.tasa_compra := by
    unfold costoVenta
    rcases hins with hnil | hlt
    · rw [if_neg (by simp [hnil])]
    · by_cases hlen : (lotesDisponibles db inp.divisa_id caja.id).length ≠ 0
      · rw [if_pos hlen, if_neg (not_le.mpr hlt)]
      · rw [if_neg hlen]
  constructor
  · rw [hr, aplicarTx_snd]
    unfold utilidadCalc
    rw [hv, hcosto]
  · rw [hdb', aplicarTx_lotes_venta db uid inp caja d _ hv]
    unfold lotesTrasVenta
    rw [if_neg]
    rintro ⟨hlen, hge⟩
    rcases hins with hnil | hlt
    · exact hlen (by simp [hnil])
    · exact absurd hge (not_le.mpr hlt)

/-- C2 (witness): the amended theorem applied to the concrete
insufficient-inventory state. -/
theorem C2_testigo :
    resEj2.2.utilidad = some (round2 (round2 ((7 : ℚ) * (18/5)) -
      7 * divisaUSD.tasa_compra)) ∧
    resEj2.1.lotes = dbEj2.lotes :=
  C2_enmendada dbEj2 1 inpEj1 resEj2.1 resEj2.2 cajaEj divisaUSD rfl
    (by with_unfolding_all rfl) (by with_unfolding_all decide)
    (by with_unfolding_all decide) (by with_unfolding_all decide)

/-! ## C3 -/

/-- C3 (code evaluated at the failing input): selling 8 USD against lots
[5 @ 3.00, 5 @ 3.20] leaves the second lot with 2 units remaining yet
flagged `disponible = FALSE`: the UPDATE's
`disponible = IF(monto - ? <= 0, FALSE, TRUE)` reads the column value
already decremented by the preceding assignment (MySQL evaluates SET left
to right), so the test is remaining − consumed ≤ 0 instead of
remaining ≤ 0.  This contradicts the claim that `available` is false
exactly when the remaining amount reaches zero. -/
theorem C3_bug_disponible :
    lotesResultado (registrarTransaccion dbEj1 1 inpEj3) = some [(0, false), (2, false)] ∧
    ¬ (∀ p ∈ [((0 : ℚ), false), ((2 : ℚ), false)], (p.2 = true ↔ 0 < p.1)) := by
  refine ⟨by with_unfolding_all decide, by with_unfolding_all decide⟩

/-! ## Further balance lemmas -/

theorem saldoActualL_map_set (l : List CajaSaldo) (c d : Nat) (v : ℚ)
    (h : existeSaldoL l c d = true) :
    saldoActualL (l.map fun s =>
      if esSaldoDe c d s then { s with saldo_actual := v } else s) c d = v := by
  unfold saldoActualL
  rw [List.find?_map]
  have hcomp : (esSaldoDe c d ∘ fun s =>
      if esSaldoDe c d s then { s with saldo_actual := v } else s) = esSaldoDe c d := by
    funext s
    by_cases hp : s.caja_id = c ∧ s.divisa_id = d
    · simp [esSaldoDe, hp]
    · simp [esSaldoDe, hp]
  rw [hcomp]
  unfold existeSaldoL at h
  rw [List.any_eq_true] at h
  obtain ⟨s, hs, hp⟩ := h
  cases hf : l.find? (esSaldoDe c d) with
  | none =>
    rw [List.find?_eq_none] at hf
    exact absurd hp (hf s hs)
  | some s0 =>
    have hp0 := List.find?_some hf
    simp [hp0]

theorem saldoActualL_append_new (l : List CajaSaldo) (c d : Nat) (si v : ℚ)
    (h : existeSaldoL l c d = false) :
    saldoActualL (l ++ [⟨c, d, si, v⟩]) c d = v := by
  unfold saldoActualL
  rw [List.find?_append]
  have hf : l.find? (esSaldoDe c d) = none := by
    rw [List.find?_eq_none]
    intro s hs hp
    unfold existeSaldoL at h
    rw [Bool.eq_false_iff] at h
    exact h (List.any_eq_true.mpr ⟨s, hs, hp⟩)
  rw [hf]
  simp only [Option.none_or]
  rw [List.find?_cons_of_pos _ (by simp [esSaldoDe])]

theorem saldoActualL_of_not_existe (l : List CajaSaldo) (c d : Nat)
    (h : existeSaldoL l c d = false) : saldoActualL l c d = 0 := by
  unfold saldoActualL
  have hf : l.find? (esSaldoDe c d) = none := by
    rw [List.find?_eq_none]
    intro s hs hp
    unfold existeSaldoL at h
    rw [Bool.eq_false_iff] at h
    exact h (List.any_eq_true.mpr ⟨s, hs, hp⟩)
  rw [hf]

theorem length_le_one_eq {α : Type} {l : List α} (h : l.length ≤ 1)
    {x y : α} (hx : x ∈ l) (hy : y ∈ l) : x = y := by
  cases l with
  | nil => exact absurd hx (List.not_mem_nil x)
  | cons a as =>
    cases as with
    | nil =>
      simp at hx hy
      rw [hx, hy]
    | cons b bs => simp at h

/-- The foreign-currency balance after a transaction's mutation phase:
exactly the `deltaDiv` delta (the lazily created row guarantees the UPDATE
hits a row). -/
theorem aplicarTx_saldo_divisa (db : DB) (uid : Nat) (inp : TxInput) (caja : Caja)
    (d : Divisa) (total : ℚ) (hdiv1 : inp.divisa_id ≠ 1) :
    saldoActualDe (aplicarTx db uid inp caja d total).1 caja.id inp.divisa_id =
      saldoActualDe db caja.id inp.divisa_id + deltaDiv inp.tipo inp.monto := by
  have hsal := aplicarTx_caja_saldos db uid inp caja d total
  show saldoActualL (aplicarTx db uid inp caja d total).1.caja_saldos caja.id inp.divisa_id = _
  rw [hsal]
  have hex : existeSaldoL
      ((ensureSaldo (ensureSaldo db caja.id 1) caja.id inp.divisa_id).caja_saldos.map
        (conDelta caja.id 1 (deltaPen inp.tipo total))) caja.id inp.divisa_id = true := by
    rw [existeSaldoL_map_conDelta]
    exact existeSaldo_ensureSaldo_self (ensureSaldo db caja.id 1) caja.id inp.divisa_id
  rw [saldoActualL_map_conDelta_self _ _ _ _ hex]
  rw [saldoActualL_map_conDelta_other _ _ _ _ _ _ (by rintro ⟨-, h1⟩; exact hdiv1 h1)]
  have : saldoActualL
      (ensureSaldo (ensureSaldo db caja.id 1) caja.id inp.divisa_id).caja_saldos
      caja.id inp.divisa_id = saldoActualDe db caja.id inp.divisa_id := by
    show saldoActualDe (ensureSaldo (ensureSaldo db caja.id 1) caja.id inp.divisa_id)
      caja.id inp.divisa_id = _
    rw [saldoActualDe_ensureSaldo, saldoActualDe_ensureSaldo]
  rw [this]

/-- The home-currency balance after a transaction's mutation phase:
exactly the `deltaPen` delta. -/
theorem aplicarTx_saldo_pen (db : DB) (uid : Nat) (inp : TxInput) (caja : Caja)
    (d : Divisa) (total : ℚ) (hdiv1 : inp.divisa_id ≠ 1) :
    saldoActualDe (aplicarTx db uid inp caja d total).1 caja.id 1 =
      saldoActualDe db caja.id 1 + deltaPen inp.tipo total := by
  have hsal := aplicarTx_caja_saldos db uid inp caja d total
  show saldoActualL (aplicarTx db uid inp caja d total).1.caja_saldos caja.id 1 = _
  rw [hsal]
  rw [saldoActualL_map_conDelta_other _ _ _ _ _ _ (by rintro ⟨-, h1⟩; exact hdiv1 h1.symm)]
  have hex : existeSaldoL
      (ensureSaldo (ensureSaldo db caja.id 1) caja.id inp.divisa_id).caja_saldos
      caja.id 1 = true :=
    existeSaldo_ensureSaldo_mono (ensureSaldo db caja.id 1) caja.id inp.divisa_id caja.id 1
      (existeSaldo_ensureSaldo_self db caja.id 1)
  rw [saldoActualL_map_conDelta_self _ _ _ _ hex]
  have : saldoActualL
      (ensureSaldo (ensureSaldo db caja.id 1) caja.id inp.divisa_id).caja_saldos
      caja.id 1 = saldoActualDe db caja.id 1 := by
    show saldoActualDe (ensureSaldo (ensureSaldo db caja.id 1) caja.id inp.divisa_id)
      caja.id 1 = _
    rw [saldoActualDe_ensureSaldo, saldoActualDe_ensureSaldo]
  rw [this]

/-! ## C4 -/

/-- Till state with PEN 1000 and USD 0 seeded, no inventory. -/
def dbEj4 : DB :=
  ⟨[divisaUSD], [cajaEj], [⟨1, 1, 1000, 1000⟩, ⟨1, 2, 0, 0⟩], [], [], [], 2, 1, 1⟩

/-- BUY 100 USD at 3.50 (claimed total 350). -/
def inpEj4 : TxInput := ⟨.COMPRA, 2, none, 100, 7/2, 350, 0⟩

/-- The state and result produced by `inpEj4` on `dbEj4`. -/
def resEj4 : DB × TxResult :=
  ((registrarTransaccion dbEj4 1 inpEj4).toOption).getD (dbEj4, ⟨0, none⟩)

/-- C4: for every successful BUY of `amount` at `rate`, the till's foreign
balance increases by exactly `amount`, the PEN balance decreases by exactly
round2(amount × rate), and exactly one new inventory lot of `amount` at
unit cost `rate` is appended (no merging with prior lots). -/
theorem C4_compra (db : DB) (uid : Nat) (inp : TxInput) (db' : DB) (r : TxResult)
    (caja : Caja) (d : Divisa)
    (hc : inp.tipo = .COMPRA)
    (hok : registrarTransaccion db uid inp = .ok (db', r))
    (hcaja : cajaAbiertaDe db uid = some caja)
    (hd : divisaPorId db inp.divisa_id = some d) :
    saldoActualDe db' caja.id inp.divisa_id =
      saldoActualDe db caja.id inp.divisa_id + inp.monto ∧
    saldoActualDe db' caja.id 1 =
      saldoActualDe db caja.id 1 - round2 (inp.monto * inp.tasa) ∧
    db'.lotes = db.lotes ++
      [⟨db.next_lote_id, inp.divisa_id, caja.id, inp.monto, inp.tasa, true⟩] := by
  obtain ⟨caja', d', hchk, heq⟩ := (registrar_eq_ok_iff db uid inp db' r).mp hok
  obtain rfl : caja = caja' := Option.some.inj (hcaja.symm.trans hchk.caja_eq)
  obtain rfl : d = d' := Option.some.inj (hd.symm.trans hchk.divisa_eq)
  have hdiv1 : inp.divisa_id ≠ 1 := by
    have h2 := hchk.valid.2.2.2.2
    omega
  have hdb' : db' = (aplicarTx db uid inp caja d (round2 (inp.monto * inp.tasa))).1 :=
    congrArg Prod.fst heq
  refine ⟨?_, ?_, ?_⟩
  · rw [hdb', aplicarTx_saldo_divisa db uid inp caja d _ hdiv1, hc]
    rfl
  · rw [hdb', aplicarTx_saldo_pen db uid inp caja d _ hdiv1, hc]
    unfold deltaPen
    ring
  · rw [hdb', aplicarTx_lotes_compra db uid inp caja d _ hc]

/-- C4 (witness): the theorem applied to a concrete BUY of 100 USD at
3.50 on a till holding PEN 1000. -/
theorem C4_testigo :
    saldoActualDe resEj4.1 1 2 = saldoActualDe dbEj4 1 2 + 100 ∧
    saldoActualDe resEj4.1 1 1 = saldoActualDe dbEj4 1 1 - round2 ((100 : ℚ) * (7/2)) ∧
    resEj4.1.lotes = dbEj4.lotes ++ [⟨1, 2, 1, 100, 7/2, true⟩] :=
  C4_compra dbEj4 1 inpEj4 resEj4.1 resEj4.2 cajaEj divisaUSD rfl
    (by with_unfolding_all rfl) (by with_unfolding_all decide)
    (by with_unfolding_all decide)

/-! ## C5 -/

/-- C5: in every reachable state, each till's `utilidad_total` equals the
sum of `utilidad` over the VENTA transactions recorded against it: the
till opens at 0, each VENTA adds exactly its computed utilidad, and
COMPRA, adjustments, closes and registry updates leave it unchanged. -/
theorem C5_utilidad_total {db : DB} (h : Alcanzable db) :
    ∀ c ∈ db.cajas, c.utilidad_total = sumUtilidades db.transacciones c.id :=
  (alcanzable_invUtilidad h).2.2

/-- The spec's §8 scenario: open with PEN 1000 / USD 0. -/
def dbW0 : DB := DB.inicial [divisaUSD]

/-- After opening the till. -/
def dbW1 : DB :=
  match abrirCaja dbW0 1 [("PEN", 1000), ("USD", 0)] none with
  | .ok p => p.1
  | .error _ => dbW0

/-- BUY 100 USD at 3.50. -/
def inpW2 : TxInput := ⟨.COMPRA, 2, none, 100, 7/2, 350, 0⟩

/-- After the BUY. -/
def dbW2 : DB :=
  match registrarTransaccion dbW1 1 inpW2 with
  | .ok p => p.1
  | .error _ => dbW1

/-- SELL 60 USD at 3.60. -/
def inpW3 : TxInput := ⟨.VENTA, 2, none, 60, 18/5, 216, 0⟩

/-- After the SELL (utilidad 6). -/
def dbW3 : DB :=
  match registrarTransaccion dbW2 1 inpW3 with
  | .ok p => p.1
  | .error _ => dbW2

theorem alcanzable_dbW1 : Alcanzable dbW1 :=
  @Alcanzable.abrir dbW0 dbW1 1 1 [("PEN", 1000), ("USD", 0)] none
    (Alcanzable.inicial [divisaUSD]) (by with_unfolding_all rfl)

theorem alcanzable_dbW2 : Alcanzable dbW2 :=
  @Alcanzable.transaccion dbW1 dbW2 1 inpW2 ⟨1, none⟩ alcanzable_dbW1
    (by with_unfolding_all rfl)

theorem alcanzable_dbW3 : Alcanzable dbW3 :=
  @Alcanzable.transaccion dbW2 dbW3 1 inpW3 ⟨2, some 6⟩ alcanzable_dbW2
    (by with_unfolding_all rfl)

/-- C5 (witness): after open / BUY 100 @ 3.50 / SELL 60 @ 3.60 the till
carries utilidad_total 6, which is the sum over its VENTA rows. -/
theorem C5_testigo :
    (⟨1, 1, EstadoCaja.ABIERTA, 6⟩ : Caja).utilidad_total =
      sumUtilidades dbW3.transacciones (⟨1, 1, EstadoCaja.ABIERTA, 6⟩ : Caja).id :=
  C5_utilidad_total alcanzable_dbW3 ⟨1, 1, EstadoCaja.ABIERTA, 6⟩
    (by with_unfolding_all decide)

/-! ## C6 -/

/-- C6: once the hard checks pass (open till, known currency, rate within
tolerance, consistent total, customer rule), a VENTA always succeeds, with
no condition on the till's balance or inventory; with empty available
inventory the cost falls back to the reference buy rate, and the foreign
balance simply drops by the amount (it may go negative). -/
theorem C6_venta_procede (db : DB) (uid : Nat) (inp : TxInput) (caja : Caja)
    (d : Divisa) (hchk : ChequeosOk db uid inp caja d) (hv : inp.tipo = .VENTA) :
    registrarTransaccion db uid inp =
      .ok (aplicarTx db uid inp caja d (round2 (inp.monto * inp.tasa))) ∧
    (lotesDisponibles db inp.divisa_id caja.id = [] →
      (aplicarTx db uid inp caja d (round2 (inp.monto * inp.tasa))).2.utilidad =
        some (round2 (round2 (inp.monto * inp.tasa) - inp.monto * d.tasa_compra))) ∧
    saldoActualDe (aplicarTx db uid inp caja d (round2 (inp.monto * inp.tasa))).1
        caja.id inp.divisa_id =
      saldoActualDe db caja.id inp.divisa_id - inp.monto := by
  have hdiv1 : inp.divisa_id ≠ 1 := by
    have h2 := hchk.valid.2.2.2.2
    omega
  refine ⟨?_, ?_, ?_⟩
  · exact (registrar_eq_ok_iff db uid inp _ _).mpr ⟨caja, d, hchk, rfl⟩
  · intro hnil
    rw [aplicarTx_snd]
    unfold utilidadCalc
    rw [hv]
    unfold costoVenta
    rw [if_neg (by simp [hnil])]
  · rw [aplicarTx_saldo_divisa db uid inp caja d _ hdiv1, hv]
    unfold deltaDiv
    ring

/-- Till state with an open till, no balance rows and no inventory. -/
def dbEj6 : DB := ⟨[divisaUSD], [cajaEj], [], [], [], [], 2, 1, 1⟩

/-- SELL 40 USD at 3.60 with zero inventory and zero balance. -/
def inpEj6 : TxInput := ⟨.VENTA, 2, none, 40, 18/5, 144, 0⟩

/-- C6 (witness): SELL 40 USD on an empty till goes through, prices the
sale at the reference buy rate, and drives the USD balance to −40. -/
theorem C6_testigo :
    registrarTransaccion dbEj6 1 inpEj6 =
      .ok (aplicarTx dbEj6 1 inpEj6 cajaEj divisaUSD (round2 ((40 : ℚ) * (18/5)))) ∧
    (aplicarTx dbEj6 1 inpEj6 cajaEj divisaUSD (round2 ((40 : ℚ) * (18/5)))).2.utilidad =
      some (round2 (round2 ((40 : ℚ) * (18/5)) - 40 * divisaUSD.tasa_compra)) ∧
    saldoActualDe
        (aplicarTx dbEj6 1 inpEj6 cajaEj divisaUSD (round2 ((40 : ℚ) * (18/5)))).1 1 2 =
      saldoActualDe dbEj6 1 2 - 40 := by
  obtain ⟨h1, h2, h3⟩ := C6_venta_procede dbEj6 1 inpEj6 cajaEj divisaUSD
    ⟨by with_unfolding_all decide, by with_unfolding_all rfl, by with_unfolding_all rfl,
     by with_unfolding_all decide, by with_unfolding_all decide,
     by with_unfolding_all decide⟩ rfl
  exact ⟨h1, h2 (by with_unfolding_all decide), h3⟩

/-! ## C7 -/

/-- C7: closing a till twice fails the second time with the no-open-till
error (an error models the SQL rollback, so the failed call changes
nothing), and opening a till while the operator already has an open one
fails with the already-open error. -/
theorem C7_ciclo (db : DB) (uid : Nat) :
    (∀ db' cid, cerrarCaja db uid = .ok (db', cid) →
      (abiertasDe db uid).length ≤ 1 →
      cerrarCaja db' uid = .error "No hay caja abierta para cerrar") ∧
    (abiertasDe db uid ≠ [] → ∀ s desc,
      (∀ p ∈ s, p.1 ∈ (["PEN", "USD", "EUR"] : List String) ∧ 0 ≤ p.2) →
      abrirCaja db uid s desc = .error "Ya hay una caja abierta") := by
  constructor
  · intro db' cid hok hlen
    obtain ⟨c, hc, -, hcajas, -, -⟩ := cerrar_ok_inv hok
    have hempty : abiertasDe db' uid = [] := by
      rw [List.eq_nil_iff_forall_not_mem]
      intro k' hk'
      obtain ⟨hk'm, hk'e, hk'u⟩ := mem_abiertasDe.mp hk'
      rw [hcajas] at hk'm
      obtain ⟨k, hk, hkk⟩ := List.mem_map.mp hk'm
      by_cases hkid : k.id = c.id
      · rw [if_pos (by simpa using hkid)] at hkk
        rw [← hkk] at hk'e
        simp at hk'e
      · rw [if_neg (by simpa using hkid)] at hkk
        subst hkk
        have hcmem : c ∈ abiertasDe db uid := maxPorId_mem hc
        have hkmem : k ∈ abiertasDe db uid := mem_abiertasDe.mpr ⟨hk, hk'e, hk'u⟩
        exact hkid (congrArg Caja.id (length_le_one_eq hlen hkmem hcmem))
    have hnone : cajaAbiertaDe db' uid = none := by
      unfold cajaAbiertaDe
      rw [hempty]
      rfl
    unfold cerrarCaja
    rw [hnone]
  · intro hne s desc hval
    unfold abrirCaja
    rw [if_neg (not_not_intro hval), if_pos hne]

/-- The till of `dbEj6` after a first successful close. -/
def dbEj7c : DB :=
  match cerrarCaja dbEj6 1 with
  | .ok p => p.1
  | .error _ => dbEj6

/-- C7 (witness): the theorem applied to the concrete one-open-till state:
the second close errors, and re-opening while open errors. -/
theorem C7_testigo :
    cerrarCaja dbEj7c 1 = .error "No hay caja abierta para cerrar" ∧
    abrirCaja dbEj6 1 [("PEN", 5)] none = .error "Ya hay una caja abierta" := by
  obtain ⟨h1, h2⟩ := C7_ciclo dbEj6 1
  exact ⟨h1 dbEj7c 1 (by with_unfolding_all rfl) (by with_unfolding_all decide),
    h2 (by with_unfolding_all decide) [("PEN", 5)] none (by with_unfolding_all decide)⟩

/-! ## C8 -/

/-- C8: on any successful transaction the recomputed total
round2(amount × rate) is within 0.01 of the caller's claimed total and is
the value persisted in the new `transacciones` row; and whenever the
earlier checks pass but the deviation exceeds 0.01 the call is rejected
with the inconsistent-total error (the error models rollback: nothing is
persisted). -/
theorem C8_total_soles (db : DB) (uid : Nat) (inp : TxInput) :
    (∀ db' r, registrarTransaccion db uid inp = .ok (db', r) →
      |round2 (inp.monto * inp.tasa) - inp.total_soles| ≤ 1/100 ∧
      (db'.transacciones.map (fun t => t.total_soles)).getLast? =
        some (round2 (inp.monto * inp.tasa))) ∧
    (∀ caja d,
      (0 < inp.monto ∧ 0 < inp.tasa ∧ 0 < inp.total_soles ∧ 0 ≤ inp.comision ∧
        2 ≤ inp.divisa_id) →
      cajaAbiertaDe db uid = some caja →
      divisaPorId db inp.divisa_id = some d →
      |inp.tasa - tasaRef inp.tipo d| ≤ 1/10 →
      |round2 (inp.monto * inp.tasa) - inp.total_soles| > 1/100 →
      registrarTransaccion db uid inp = .error "Total soles inconsistente") := by
  constructor
  · intro db' r hok
    obtain ⟨caja, d, hchk, heq⟩ := (registrar_eq_ok_iff db uid inp db' r).mp hok
    refine ⟨hchk.total_ok, ?_⟩
    have hdb' : db' = (aplicarTx db uid inp caja d (round2 (inp.monto * inp.tasa))).1 :=
      congrArg Prod.fst heq
    rw [hdb', aplicarTx_transacciones, List.map_append]
    simp
  · intro caja d hvalid hcaja hdiv htasa htotal
    simp only [registrarTransaccion, chequeos, hcaja, hdiv]
    rw [if_neg (not_not_intro hvalid), if_neg (not_lt.mpr htasa), if_pos htotal]

/-- BUY 100 USD at 3.50 with an inconsistent claimed total of 349. -/
def inpEj8 : TxInput := ⟨.COMPRA, 2, none, 100, 7/2, 349, 0⟩

/-- C8 (witness): the theorem applied to the concrete BUY — a consistent
total is persisted as recomputed, an inconsistent one is rejected. -/
theorem C8_testigo :
    (|round2 ((100 : ℚ) * (7/2)) - 350| ≤ 1/100 ∧
      (resEj4.1.transacciones.map (fun t => t.total_soles)).getLast? =
        some (round2 ((100 : ℚ) * (7/2)))) ∧
    registrarTransaccion dbEj4 1 inpEj8 = .error "Total soles inconsistente" :=
  ⟨(C8_total_soles dbEj4 1 inpEj4).1 resEj4.1 resEj4.2 (by with_unfolding_all rfl),
   (C8_total_soles dbEj4 1 inpEj8).2 cajaEj divisaUSD (by with_unfolding_all decide)
     (by with_unfolding_all decide) (by with_unfolding_all decide)
     (by with_unfolding_all decide) (by with_unfolding_all decide)⟩

/-! ## C9 -/

/-- C9 (amended): an adjustment whose delta would drive the balance
negative fails with the negative-balance error and (errors model
rollback) changes nothing; a successful one applies exactly the delta
(+monto for INGRESO, −monto for EGRESO) and appends exactly one movement
whose `tipo` is the caller's INGRESO/EGRESO and whose description is the
caller's text — no field of it is 'AJUSTE'. -/
theorem C9_enmendada (db : DB) (uid : Nat) (moneda tipo : String) (monto : ℚ)
    (descripcion : String) (c : Caja) (d : Divisa)
    (hval : moneda ∈ (["PEN", "USD", "EUR"] : List String) ∧
      (tipo = "INGRESO" ∨ tipo = "EGRESO") ∧ 0 < monto)
    (hc : cajaAbiertaDe db uid = some c)
    (hd : db.divisas.find? (fun dv => decide (dv.codigo = moneda)) = some d) :
    (nuevoSaldo db c.id d.id tipo monto < 0 →
      ajustarCaja db uid moneda tipo monto descripcion =
        .error "El ajuste resultaria en saldo negativo") ∧
    (∀ db' cid, ajustarCaja db uid moneda tipo monto descripcion = .ok (db', cid) →
      saldoActualDe db' c.id d.id = nuevoSaldo db c.id d.id tipo monto ∧
      db'.movimientos = db.movimientos ++ [⟨c.id, tipo, d.id, monto, descripcion, uid⟩] ∧
      db'.cajas = db.cajas ∧ db'.lotes = db.lotes ∧
      db'.transacciones = db.transacciones) := by
  constructor
  · intro hneg
    simp only [ajustarCaja, hc, hd]
    rw [if_neg (not_not_intro hval), if_pos hneg]
  · intro db' cid hok
    simp only [ajustarCaja, hc, hd] at hok
    rw [if_neg (not_not_intro hval)] at hok
    split at hok
    · exact Except.noConfusion hok
    split at hok
    · rename_i hex
      simp only [Except.ok.injEq, Prod.mk.injEq] at hok
      obtain ⟨hdb, -⟩ := hok
      subst hdb
      exact ⟨saldoActualL_map_set db.caja_saldos c.id d.id _ hex, rfl, rfl, rfl, rfl⟩
    · rename_i hex
      simp only [Except.ok.injEq, Prod.mk.injEq] at hok
      obtain ⟨hdb, -⟩ := hok
      subst hdb
      exact ⟨saldoActualL_append_new db.caja_saldos c.id d.id 0 _ (by simpa using hex),
        rfl, rfl, rfl, rfl⟩

/-- Till state with USD 50 in the open till. -/
def dbEj9 : DB := ⟨[divisaUSD], [cajaEj], [⟨1, 2, 50, 50⟩], [], [], [], 2, 1, 1⟩

/-- The state after a successful INGRESO adjustment of 10 USD. -/
def dbEj9b : DB :=
  match ajustarCaja dbEj9 1 "USD" "INGRESO" 10 "reposicion manual" with
  | .ok p => p.1
  | .error _ => dbEj9

/-- C9 (counterexample): the movement appended by a successful adjustment
carries the caller's direction (INGRESO) as `tipo` and the caller's free
text as `descripcion`; no field of it equals 'AJUSTE', refuting
"appends one Movement with reason = AJUSTE". -/
theorem C9_contraejemplo :
    movsResultado (ajustarCaja dbEj9 1 "USD" "INGRESO" 10 "reposicion manual") =
      some [⟨1, "INGRESO", 2, 10, "reposicion manual", 1⟩] ∧
    ("INGRESO" : String) ≠ "AJUSTE" ∧ ("reposicion manual" : String) ≠ "AJUSTE" := by
  exact ⟨by with_unfolding_all decide, by decide, by decide⟩

/-- C9 (witness): the amended theorem applied concretely — EGRESO 60 from
a 50 balance is rejected; INGRESO 10 applies exactly +10 and appends the
one movement. -/
theorem C9_testigo :
    ajustarCaja dbEj9 1 "USD" "EGRESO" 60 "retiro" =
      .error "El ajuste resultaria en saldo negativo" ∧
    (saldoActualDe dbEj9b 1 2 = nuevoSaldo dbEj9 1 2 "INGRESO" 10 ∧
     dbEj9b.movimientos = dbEj9.movimientos ++
       [⟨1, "INGRESO", 2, 10, "reposicion manual", 1⟩] ∧
     dbEj9b.cajas = dbEj9.cajas ∧ dbEj9b.lotes = dbEj9.lotes ∧
     dbEj9b.transacciones = dbEj9.transacciones) :=
  ⟨(C9_enmendada dbEj9 1 "USD" "EGRESO" 60 "retiro" cajaEj divisaUSD
      (by with_unfolding_all decide) (by with_unfolding_all decide)
      (by with_unfolding_all decide)).1 (by with_unfolding_all decide),
   (C9_enmendada dbEj9 1 "USD" "INGRESO" 10 "reposicion manual" cajaEj divisaUSD
      (by with_unfolding_all decide) (by with_unfolding_all decide)
      (by with_unfolding_all decide)).2 dbEj9b 1 (by with_unfolding_all rfl)⟩

/-! ## C10 -/

/-- C10: the persisted `comision` of every recorded transaction is the
computed utilidad for a VENTA (overwriting whatever the caller supplied)
and the caller-supplied `comision` for a COMPRA. -/
theorem C10_comision (db : DB) (uid : Nat) (inp : TxInput) (db' : DB) (r : TxResult)
    (caja : Caja) (d : Divisa)
    (hok : registrarTransaccion db uid inp = .ok (db', r))
    (hcaja : cajaAbiertaDe db uid = some caja)
    (hd : divisaPorId db inp.divisa_id = some d) :
    db'.transacciones = db.transacciones ++
      [⟨db.next_tx_id, caja.id, inp.tipo, inp.divisa_id, inp.cliente_id, inp.monto,
        comisionCalc db inp caja d (round2 (inp.monto * inp.tasa)), inp.tasa,
        round2 (inp.monto * inp.tasa),
        utilidadCalc db inp caja d (round2 (inp.monto * inp.tasa)), uid, ""⟩] ∧
    (inp.tipo = .VENTA →
      utilidadCalc db inp caja d (round2 (inp.monto * inp.tasa)) =
        some (comisionCalc db inp caja d (round2 (inp.monto * inp.tasa)))) ∧
    (inp.tipo = .COMPRA →
      comisionCalc db inp caja d (round2 (inp.monto * inp.tasa)) = inp.comision) := by
  obtain ⟨caja', d', hchk, heq⟩ := (registrar_eq_ok_iff db uid inp db' r).mp hok
  obtain rfl : caja = caja' := Option.some.inj (hcaja.symm.trans hchk.caja_eq)
  obtain rfl : d = d' := Option.some.inj (hd.symm.trans hchk.divisa_eq)
  have hdb' : db' = (aplicarTx db uid inp caja d (round2 (inp.monto * inp.tasa))).1 :=
    congrArg Prod.fst heq
  refine ⟨?_, ?_, ?_⟩
  · rw [hdb']
    exact aplicarTx_transacciones db uid inp caja d _
  · intro hv
    unfold utilidadCalc comisionCalc
    rw [hv]
  · intro hcm
    unfold comisionCalc
    rw [hcm]

/-- C10 (witness): the theorem applied to the concrete VENTA of `dbEj1`:
the persisted row carries comisionCalc, which for a VENTA is the computed
utilidad. -/
theorem C10_testigo :
    resEj1.1.transacciones = dbEj1.transacciones ++
      [⟨1, 1, TipoTx.VENTA, 2, none, 7,
        comisionCalc dbEj1 inpEj1 cajaEj divisaUSD (round2 ((7 : ℚ) * (18/5))), 18/5,
        round2 ((7 : ℚ) * (18/5)),
        utilidadCalc dbEj1 inpEj1 cajaEj divisaUSD (round2 ((7 : ℚ) * (18/5))), 1, ""⟩] ∧
    utilidadCalc dbEj1 inpEj1 cajaEj divisaUSD (round2 ((7 : ℚ) * (18/5))) =
      some (comisionCalc dbEj1 inpEj1 cajaEj divisaUSD (round2 ((7 : ℚ) * (18/5)))) := by
  obtain ⟨h1, h2, -⟩ := C10_comision dbEj1 1 inpEj1 resEj1.1 resEj1.2 cajaEj divisaUSD
    (by with_unfolding_all rfl) (by with_unfolding_all decide) (by with_unfolding_all decide)
  exact ⟨h1, h2 rfl⟩

end Cajax
